import Mathlib

/-!
Formal model of the gamacros input-to-action engine.

The definitions below are a shallow embedding of the Rust sources:
  * `crates/gamacros-bit/mask/src/bitmask.rs` (the 64-bit bitmask primitive),
  * `crates/gamacros-controller/src/types.rs` (buttons and controller info),
  * `crates/gamacros-control/src/key.rs`, `modifiers.rs`, `key_combo.rs`
    (keys, modifier sets and key-combo parsing),
  * `crates/gamacrosd/src/app/stick/repeat.rs` and `tick.rs` (the repeat
    scheduler and the stick tick processing),
  * `crates/gamacrosd/src/app/gamacros.rs` (the `Gamacros` core facade).

Conventions of the embedding: Rust `u64` values (bit masks, sequence
counters) are natural numbers reduced modulo `2 ^ 64` exactly where the
source can overflow; `Instant` is a natural number of milliseconds;
`f32` axis values and deadzones are modelled as rationals (the concrete
inputs below are exactly representable in `f32`, where the comparisons
performed by the source are exact); hash maps are association lists;
fallible or panicking paths return `Option`.
-/

/-- Logical controller buttons, from `gamacros-controller/src/types.rs`.
The derived `Bit` implementation gives each value the bit
`1 << discriminant`, in declaration order. -/
inductive Button
  | a | b | x | y | back | guide | start
  | leftStick | rightStick | leftShoulder | rightShoulder
  | leftTrigger | rightTrigger
  | dpadUp | dpadDown | dpadLeft | dpadRight
deriving DecidableEq, Repr

/-- Stable zero-based bit index of a button (its Rust discriminant). -/
def Button.index : Button → Nat
  | .a => 0 | .b => 1 | .x => 2 | .y => 3 | .back => 4 | .guide => 5
  | .start => 6 | .leftStick => 7 | .rightStick => 8 | .leftShoulder => 9
  | .rightShoulder => 10 | .leftTrigger => 11 | .rightTrigger => 12
  | .dpadUp => 13 | .dpadDown => 14 | .dpadLeft => 15 | .dpadRight => 16

/-- The single-bit mask of a button: `1u64 << index`. -/
def Button.bit (b : Button) : Nat := 2 ^ b.index

/-- Size of the `u64` value space. -/
def u64Size : Nat := 2 ^ 64

/-- All-ones `u64`, used to model bitwise negation `!bit`. -/
def u64Ones : Nat := 2 ^ 64 - 1

/-- Bounded popcount: `u64::count_ones` computed by 64 halving steps
(every `u64` value is below `2 ^ 64`, so 64 steps reach zero). -/
def popCountFuel : Nat → Nat → Nat
  | 0, _ => 0
  | fuel + 1, n => if n = 0 then 0 else popCountFuel fuel (n / 2) + n % 2

/-- A 64-bit mask over buttons, from `gamacros-bit/mask/src/bitmask.rs`.
The phantom element type is specialised to `Button`, the only
instantiation the daemon uses for chords. -/
structure Bitmask where
  bits : Nat
deriving DecidableEq, Repr

/-- Bitmask construction from a list of buttons (`Bitmask::new`):
fold of bitwise or, duplicates idempotent. -/
def Bitmask.ofList (values : List Button) : Bitmask :=
  ⟨values.foldl (fun bits v => bits ||| v.bit) 0⟩

/-- The empty bitmask (`Bitmask::empty`). -/
def Bitmask.emptyMask : Bitmask := ⟨0⟩

/-- Membership test (`Bitmask::contains`). -/
def Bitmask.containsBtn (m : Bitmask) (b : Button) : Bool :=
  (m.bits &&& b.bit) != 0

/-- Insert a button (`Bitmask::insert`): bitwise or with its bit. -/
def Bitmask.insertBtn (m : Bitmask) (b : Button) : Bitmask :=
  ⟨m.bits ||| b.bit⟩

/-- Remove a button (`Bitmask::remove`): bitwise and with the
complemented bit (`self.0 &= !bit` on `u64`). -/
def Bitmask.removeBtn (m : Bitmask) (b : Button) : Bitmask :=
  ⟨m.bits &&& (u64Ones ^^^ b.bit)⟩

/-- Subset test (`Bitmask::is_subset`): `self & other == self`. -/
def Bitmask.isSubset (m other : Bitmask) : Bool :=
  (m.bits &&& other.bits) == m.bits

/-- Superset test (`Bitmask::is_superset`): `other.is_subset(self)`. -/
def Bitmask.isSuperset (m other : Bitmask) : Bool :=
  other.isSubset m

/-- Popcount (`Bitmask::count`). -/
def Bitmask.count (m : Bitmask) : Nat := popCountFuel 64 m.bits

/-- Emulated keys, from `gamacros-control/src/key.rs`. -/
inductive Key
  | unicode (ch : Char)
  | control | rcontrol | metaKey | rcommand
  | shiftKey | rshift | altKey | ralt
  | home | endKey | pageUp | pageDown
  | upArrow | downArrow | leftArrow | rightArrow
  | delete | backspace | escapeKey | tab | space | returnKey
  | volumeUp | volumeDown | volumeMute | brightnessUp | brightnessDown
  | f1 | f2 | f3 | f4 | f5 | f6 | f7 | f8 | f9 | f10
  | f11 | f12 | f13 | f14 | f15 | f16 | f17 | f18 | f19 | f20
  | apostrophe | semicolon | backslash | grave
  | other (code : Nat)
deriving Repr

/-- Constructor index of a key (the derived decidable equality on the
64-constructor enumeration produces a very deep term; a small injective
encoding keeps the instance shallow). -/
def Key.ctorCode : Key → Nat
  | .unicode _ => 0
  | .control => 1 | .rcontrol => 2 | .metaKey => 3 | .rcommand => 4
  | .shiftKey => 5 | .rshift => 6 | .altKey => 7 | .ralt => 8
  | .home => 9 | .endKey => 10 | .pageUp => 11 | .pageDown => 12
  | .upArrow => 13 | .downArrow => 14 | .leftArrow => 15 | .rightArrow => 16
  | .delete => 17 | .backspace => 18 | .escapeKey => 19 | .tab => 20
  | .space => 21 | .returnKey => 22
  | .volumeUp => 23 | .volumeDown => 24 | .volumeMute => 25
  | .brightnessUp => 26 | .brightnessDown => 27
  | .f1 => 28 | .f2 => 29 | .f3 => 30 | .f4 => 31 | .f5 => 32 | .f6 => 33
  | .f7 => 34 | .f8 => 35 | .f9 => 36 | .f10 => 37 | .f11 => 38 | .f12 => 39
  | .f13 => 40 | .f14 => 41 | .f15 => 42 | .f16 => 43 | .f17 => 44
  | .f18 => 45 | .f19 => 46 | .f20 => 47
  | .apostrophe => 48 | .semicolon => 49 | .backslash => 50 | .grave => 51
  | .other _ => 52

/-- Character payload of a key (`unicode`), arbitrary elsewhere. -/
def Key.payloadChar : Key → Char
  | .unicode ch => ch
  | _ => 'a'

/-- Numeric payload of a key (`other`), arbitrary elsewhere. -/
def Key.payloadNat : Key → Nat
  | .other code => code
  | _ => 0

/-- Partial inverse of the key encoding: rebuild a key from its
constructor index and payloads. -/
def Key.decode (n : Nat) (ch : Char) (code : Nat) : Option Key :=
  match n with
  | 0 => some (.unicode ch)
  | 1 => some .control | 2 => some .rcontrol | 3 => some .metaKey
  | 4 => some .rcommand | 5 => some .shiftKey | 6 => some .rshift
  | 7 => some .altKey | 8 => some .ralt | 9 => some .home
  | 10 => some .endKey | 11 => some .pageUp | 12 => some .pageDown
  | 13 => some .upArrow | 14 => some .downArrow | 15 => some .leftArrow
  | 16 => some .rightArrow | 17 => some .delete | 18 => some .backspace
  | 19 => some .escapeKey | 20 => some .tab | 21 => some .space
  | 22 => some .returnKey | 23 => some .volumeUp | 24 => some .volumeDown
  | 25 => some .volumeMute | 26 => some .brightnessUp
  | 27 => some .brightnessDown
  | 28 => some .f1 | 29 => some .f2 | 30 => some .f3 | 31 => some .f4
  | 32 => some .f5 | 33 => some .f6 | 34 => some .f7 | 35 => some .f8
  | 36 => some .f9 | 37 => some .f10 | 38 => some .f11 | 39 => some .f12
  | 40 => some .f13 | 41 => some .f14 | 42 => some .f15 | 43 => some .f16
  | 44 => some .f17 | 45 => some .f18 | 46 => some .f19 | 47 => some .f20
  | 48 => some .apostrophe | 49 => some .semicolon | 50 => some .backslash
  | 51 => some .grave
  | 52 => some (.other code)
  | _ => none

instance : DecidableEq Key := fun a b =>
  decidable_of_iff
    (a.ctorCode = b.ctorCode ∧ a.payloadChar = b.payloadChar ∧
      a.payloadNat = b.payloadNat)
    (by
      have hdec : ∀ k : Key,
          Key.decode k.ctorCode k.payloadChar k.payloadNat = some k := by
        intro k
        cases k <;> rfl
      constructor
      · intro h
        obtain ⟨h1, h2, h3⟩ := h
        have ha := hdec a
        rw [h1, h2, h3, hdec b] at ha
        exact (Option.some.inj ha).symm
      · intro h
        rw [h]
        exact ⟨rfl, rfl, rfl⟩)

/-- Keyboard modifiers, from `gamacros-control/src/modifiers.rs`. -/
inductive Modifier
  | ctrl | metaMod | shiftMod | altMod
deriving DecidableEq, Repr

/-- Bit of a modifier in the `u8` bitmap (`Modifier::to_bitmap`). -/
def Modifier.toBitmap : Modifier → Nat
  | .ctrl => 1
  | .metaMod => 2
  | .shiftMod => 4
  | .altMod => 8

/-- A set of modifiers as a `u8` bitmap (`Modifiers`). -/
structure Modifiers where
  bits : Nat
deriving DecidableEq, Repr

/-- The empty modifier set (`Modifiers::empty`). -/
def Modifiers.emptyMods : Modifiers := ⟨0⟩

/-- Add a modifier (`Modifiers::add`): or with its bitmap. -/
def Modifiers.add (m : Modifiers) (mo : Modifier) : Modifiers :=
  ⟨m.bits ||| mo.toBitmap⟩

/-- Membership test (`Modifiers::contains`). -/
def Modifiers.containsMod (m : Modifiers) (mo : Modifier) : Bool :=
  (m.bits &&& mo.toBitmap) != 0

/-- A key combination, from `gamacros-control/src/key_combo.rs`. -/
structure KeyCombo where
  modifiers : Modifiers
  keys : List Key
deriving DecidableEq, Repr

/-- Wrap a single key (`KeyCombo::from_key`). -/
def KeyCombo.fromKey (k : Key) : KeyCombo :=
  ⟨Modifiers.emptyMods, [k]⟩

/-- macOS scan code of a printable character
(`key_code_for_key_string`). The source panics on uncovered characters
(`unreachable!`); that path is modelled as `none` and is never taken for
the ASCII-lowercase inputs the caller feeds it. -/
def keyCodeForKeyString (ch : Char) : Option Nat :=
  if ch = 'a' then some 0
  else if ch = 's' then some 1
  else if ch = 'd' then some 2
  else if ch = 'f' then some 3
  else if ch = 'h' then some 4
  else if ch = 'g' then some 5
  else if ch = 'z' then some 6
  else if ch = 'x' then some 7
  else if ch = 'c' then some 8
  else if ch = 'v' then some 9
  else if ch = 'b' then some 11
  else if ch = 'q' then some 12
  else if ch = 'w' then some 13
  else if ch = 'e' then some 14
  else if ch = 'r' then some 15
  else if ch = 'y' then some 16
  else if ch = 't' then some 17
  else if ch = '=' then some 24
  else if ch = '-' then some 27
  else if ch = '8' then some 28
  else if ch = '0' then some 29
  else if ch = ']' then some 30
  else if ch = 'o' then some 31
  else if ch = 'u' then some 32
  else if ch = '[' then some 33
  else if ch = 'i' then some 34
  else if ch = 'p' then some 35
  else if ch = 'l' then some 37
  else if ch = 'j' then some 38
  else if ch = Char.ofNat 39 then some 39
  else if ch = 'k' then some 40
  else if ch = ';' then some 41
  else if ch = Char.ofNat 92 then some 42
  else if ch = ',' then some 43
  else if ch = '/' then some 44
  else if ch = 'n' then some 45
  else if ch = 'm' then some 46
  else if ch = '.' then some 47
  else if ch = '*' then some 67
  else if ch = '+' then some 69
  else if ch = Char.ofNat 96 then some 50
  else none

/-- Named-alias branch of `parse_key`: the big literal match, written as
an equality chain over the character list of the input. -/
def parseKeyAlias (input : List Char) : Option Key :=
  if input = "ctrl".data then some Key.control
  else if input = "rctrl".data then some Key.rcontrol
  else if input = "meta".data then some Key.metaKey
  else if input = "rmeta".data then some Key.rcommand
  else if input = "cmd".data then some Key.metaKey
  else if input = "rcmd".data then some Key.rcommand
  else if input = "command".data then some Key.metaKey
  else if input = "rcommand".data then some Key.rcommand
  else if input = "super".data then some Key.metaKey
  else if input = "rsuper".data then some Key.rcommand
  else if input = "shift".data then some Key.shiftKey
  else if input = "alt".data then some Key.altKey
  else if input = "option".data then some Key.altKey
  else if input = "home".data then some Key.home
  else if input = "end".data then some Key.endKey
  else if input = "page_up".data then some Key.pageUp
  else if input = "page_down".data then some Key.pageDown
  else if input = "arrow_up".data then some Key.upArrow
  else if input = "arrow_down".data then some Key.downArrow
  else if input = "arrow_left".data then some Key.leftArrow
  else if input = "arrow_right".data then some Key.rightArrow
  else if input = "delete".data then some Key.delete
  else if input = "backspace".data then some Key.backspace
  else if input = "escape".data ∨ input = "esc".data then some Key.escapeKey
  else if input = "tab".data then some Key.tab
  else if input = "space".data ∨ input = "spacebar".data then some Key.space
  else if input = "enter".data ∨ input = "return".data then some Key.returnKey
  else if input = "volume_up".data then some Key.volumeUp
  else if input = "volume_down".data then some Key.volumeDown
  else if input = "volume_mute".data then some Key.volumeMute
  else if input = "brightness_up".data then some Key.brightnessUp
  else if input = "brightness_down".data then some Key.brightnessDown
  else if input = "'".data ∨ input = "quote".data ∨ input = "apostrophe".data then
    some Key.apostrophe
  else if input = ";".data ∨ input = "semicolon".data then some Key.semicolon
  else if input = "\\".data ∨ input = "backslash".data then some Key.backslash
  else if input = "`".data ∨ input = "grave".data ∨ input = "backtick".data ∨
      input = "tilde".data then
    some Key.grave
  else if input = "ansi_k".data then some (Key.other 0x28)
  else if input = "ansi_n".data then some (Key.other 0x2D)
  else if input = "ansi_m".data then some (Key.other 0x2E)
  else if input = "kp_decimal".data ∨ input = "keypad_decimal".data then
    some (Key.other 0x41)
  else if input = "kp_multiply".data ∨ input = "keypad_multiply".data then
    some (Key.other 0x43)
  else if input = "kp_plus".data ∨ input = "keypad_plus".data then
    some (Key.other 0x45)
  else if input = "kp_clear".data ∨ input = "keypad_clear".data then
    some (Key.other 0x47)
  else if input = "kp_divide".data ∨ input = "keypad_divide".data then
    some (Key.other 0x4B)
  else if input = "kp_enter".data ∨ input = "keypad_enter".data then
    some (Key.other 0x4C)
  else if input = "kp_minus".data ∨ input = "keypad_minus".data then
    some (Key.other 0x4E)
  else if input = "kp_equals".data ∨ input = "keypad_equals".data then
    some (Key.other 0x51)
  else if input = "kp_0".data ∨ input = "keypad_0".data then some (Key.other 0x52)
  else if input = "kp_1".data ∨ input = "keypad_1".data then some (Key.other 0x53)
  else if input = "kp_2".data ∨ input = "keypad_2".data then some (Key.other 0x54)
  else if input = "kp_3".data ∨ input = "keypad_3".data then some (Key.other 0x55)
  else if input = "kp_4".data ∨ input = "keypad_4".data then some (Key.other 0x56)
  else if input = "kp_5".data ∨ input = "keypad_5".data then some (Key.other 0x57)
  else if input = "kp_6".data ∨ input = "keypad_6".data then some (Key.other 0x58)
  else if input = "kp_7".data ∨ input = "keypad_7".data then some (Key.other 0x59)
  else if input = "kp_8".data ∨ input = "keypad_8".data then some (Key.other 0x5B)
  else if input = "kp_9".data ∨ input = "keypad_9".data then some (Key.other 0x5C)
  else if input = ".".data ∨ input = "period".data ∨ input = "dot".data then
    some (Key.other 0x2f)
  else if input = ",".data ∨ input = "comma".data then some (Key.other 0x2b)
  else if input = "/".data ∨ input = "slash".data then some (Key.other 0x2c)
  else if input = "-".data ∨ input = "minus".data then some (Key.other 0x1b)
  else if input = "=".data ∨ input = "equal".data then some (Key.other 0x18)
  else if input = "f1".data then some Key.f1
  else if input = "f2".data then some Key.f2
  else if input = "f3".data then some Key.f3
  else if input = "f4".data then some Key.f4
  else if input = "f5".data then some Key.f5
  else if input = "f6".data then some Key.f6
  else if input = "f7".data then some Key.f7
  else if input = "f8".data then some Key.f8
  else if input = "f9".data then some Key.f9
  else if input = "f10".data then some Key.f10
  else if input = "f11".data then some Key.f11
  else if input = "f12".data then some Key.f12
  else if input = "f13".data then some Key.f13
  else if input = "f14".data then some Key.f14
  else if input = "f15".data then some Key.f15
  else if input = "f16".data then some Key.f16
  else if input = "f17".data then some Key.f17
  else if input = "f18".data then some Key.f18
  else if input = "f19".data then some Key.f19
  else if input = "f20".data then some Key.f20
  else none

/-- Key-string parsing (`parse_key` in `gamacros-control/src/key.rs`):
empty input is rejected; a single ASCII-lowercase character maps to its
scan code; otherwise the named-alias table decides. -/
def parseKey (input : List Char) : Option Key :=
  if input.isEmpty then none
  else
    match input with
    | [ch] =>
      if ch.isLower then (keyCodeForKeyString ch).map Key.other
      else parseKeyAlias input
    | _ => parseKeyAlias input

/-- Rust `str::trim` on the character-list model: drop whitespace from
both ends (the model covers the ASCII whitespace characters; the inputs
considered here contain no exotic Unicode whitespace). -/
def trimChars (cs : List Char) : List Char :=
  ((cs.dropWhile Char.isWhitespace).reverse.dropWhile Char.isWhitespace).reverse

/-- Rust `str::split('+')`: `n` separators yield `n + 1` parts, empty
parts included. -/
def splitPlus : List Char → List (List Char)
  | [] => [[]]
  | c :: rest =>
    if c = '+' then [] :: splitPlus rest
    else
      match splitPlus rest with
      | [] => [[c]]
      | p :: ps => (c :: p) :: ps

/-- The accumulation loop of `KeyComboVisitor::visit_str`: each
`+`-separated part is trimmed and parsed; the four plain modifier keys
are folded into the modifier set, every other key is appended; a part
that fails to parse aborts with an error (modelled as `none`). -/
def visitStrLoop : Modifiers → List Key → List (List Char) → Option KeyCombo
  | mods, keys, [] => some ⟨mods, keys⟩
  | mods, keys, combo :: rest =>
    match parseKey (trimChars combo) with
    | some k =>
      if k = Key.control then visitStrLoop (mods.add Modifier.ctrl) keys rest
      else if k = Key.metaKey then visitStrLoop (mods.add Modifier.metaMod) keys rest
      else if k = Key.shiftKey then visitStrLoop (mods.add Modifier.shiftMod) keys rest
      else if k = Key.altKey then visitStrLoop (mods.add Modifier.altMod) keys rest
      else visitStrLoop mods (keys ++ [k]) rest
    | none => none

/-- `KeyCombo` parsing from a string (`KeyComboVisitor::visit_str`
driven by `FromStr`): split on `+`, then run the accumulation loop. -/
def keyComboFromChars (v : List Char) : Option KeyCombo :=
  visitStrLoop Modifiers.emptyMods [] (splitPlus v)

/-- Association-list lookup, modelling hash-map `get`. -/
def alistGet {α β : Type} [DecidableEq α] (k : α) : List (α × β) → Option β
  | [] => none
  | (k', v) :: rest => if k' = k then some v else alistGet k rest

/-- Association-list insert-or-replace, modelling hash-map `insert`
(and `entry(..).or_default()` followed by mutation). -/
def alistUpdate {α β : Type} [DecidableEq α] (k : α) (v : β) :
    List (α × β) → List (α × β)
  | [] => [(k, v)]
  | (k', v') :: rest =>
    if k' = k then (k, v) :: rest else (k', v') :: alistUpdate k v rest

/-- Association-list removal, modelling hash-map `remove`. -/
def alistRemove {α β : Type} [DecidableEq α] (k : α) :
    List (α × β) → List (α × β)
  | [] => []
  | (k', v') :: rest =>
    if k' = k then rest else (k', v') :: alistRemove k rest

/-- Output actions of the engine, from `app/gamacros.rs` (named
`EngineAction` here because the bare name is taken by the ambient
library). -/
inductive EngineAction
  | keyPress (k : KeyCombo)
  | keyRelease (k : KeyCombo)
  | keyTap (k : KeyCombo)
  | macros (m : List KeyCombo)
  | shell (cmd : String)
  | mouseMove (dx dy : Int)
  | scroll (h v : Int)
  | rumble (id : Nat) (ms : Nat)
deriving DecidableEq, Repr

/-- Stick axis selector of the profile (`gamacros-workspace` `Axis`). -/
inductive ProfileAxis
  | x | y
deriving DecidableEq, Repr

/-- Stick side (`StickSide`). -/
inductive StickSide
  | left | right
deriving DecidableEq, Repr

/-- Arrow direction of the stick processor (`repeat.rs` `Direction`). -/
inductive Direction
  | up | down | left | right
deriving DecidableEq, Repr

/-- Kind of a repeat task (`repeat.rs` `RepeatKind`). -/
inductive RepeatKind
  | arrow (dir : Direction)
  | volume (axis : ProfileAxis) (positive : Bool)
  | brightness (axis : ProfileAxis) (positive : Bool)
deriving DecidableEq, Repr

/-- Identity of a repeat-task slot (`repeat.rs` `RepeatTaskId`). -/
structure RepeatTaskId where
  controller : Nat
  side : StickSide
  kind : RepeatKind
deriving DecidableEq, Repr

/-- State of an occupied repeat-task slot (`repeat.rs`
`RepeatTaskState`). `last_fire : Instant` is a millisecond count. -/
structure RepeatTaskState where
  key : Key
  fireOnActivate : Bool
  initialDelayMs : Nat
  intervalMs : Nat
  lastFire : Nat
  delayDone : Bool
  lastSeenGeneration : Nat
  seq : Nat
deriving DecidableEq, Repr

/-- A registration request (`repeat.rs` `RepeatReg`). -/
structure RepeatReg where
  id : RepeatTaskId
  key : Key
  fireOnActivate : Bool
  initialDelayMs : Nat
  intervalMs : Nat
deriving DecidableEq, Repr

/-- Per-side repeat state (`repeat.rs` `SideRepeatState`): a scroll
accumulator and three fixed arrays of four optional task slots. -/
structure SideRepeatState where
  scrollAccum : ℚ × ℚ
  arrows : List (Option RepeatTaskState)
  volume : List (Option RepeatTaskState)
  brightness : List (Option RepeatTaskState)
deriving DecidableEq, Repr

/-- The all-empty side state (the `Default` instance). -/
def SideRepeatState.init : SideRepeatState :=
  ⟨(0, 0), [none, none, none, none], [none, none, none, none],
    [none, none, none, none]⟩

/-- Per-controller repeat state: two sides (`ControllerRepeatState`). -/
structure ControllerRepeatState where
  sides : List SideRepeatState
deriving DecidableEq, Repr

/-- The default controller repeat state: both sides empty. -/
def ControllerRepeatState.init : ControllerRepeatState :=
  ⟨[SideRepeatState.init, SideRepeatState.init]⟩

/-- A schedule-heap entry (`repeat.rs` `SchedEntry`): due instant in
milliseconds, task id and the sequence number it was created under. -/
structure SchedEntry where
  due : Nat
  id : RepeatTaskId
  seq : Nat
deriving DecidableEq, Repr

/-- The stick processor state (`repeat.rs` `StickProcessor`). The
`regs` field of the source is a reusable scratch vector that is cleared
at the start of every tick; it carries no information across calls and
is omitted. The binary heap is modelled as a plain list: pushes append,
and pops extract an entry of minimal due time (the source heap's order
among equal dues is unspecified). -/
structure StickProcessor where
  controllers : List (Nat × ControllerRepeatState)
  generation : Nat
  schedule : List SchedEntry
  seqCounter : Nat
deriving DecidableEq, Repr

/-- The freshly constructed processor (`StickProcessor::new`). -/
def StickProcessor.init : StickProcessor := ⟨[], 0, [], 0⟩

/-- Slot array index of an arrow direction (`dir_index`). -/
def dirIndex : Direction → Nat
  | .up => 0
  | .down => 1
  | .left => 2
  | .right => 3

/-- Slot array index of a stepper task (`step_slot_index`). -/
def stepSlotIndex : ProfileAxis → Bool → Nat
  | .x, false => 0
  | .x, true => 1
  | .y, false => 2
  | .y, true => 3

/-- Index of a stick side (`util.rs` `side_index`). -/
def sideIndex : StickSide → Nat
  | .left => 0
  | .right => 1

/-- Read the slot for a task kind out of a side state (the slot
selection of `repeater_register` / `slot_for`). -/
def SideRepeatState.getSlot (side : SideRepeatState) :
    RepeatKind → Option RepeatTaskState
  | .arrow dir => side.arrows.getD (dirIndex dir) none
  | .volume axis positive => side.volume.getD (stepSlotIndex axis positive) none
  | .brightness axis positive =>
    side.brightness.getD (stepSlotIndex axis positive) none

/-- Write the slot for a task kind into a side state. -/
def SideRepeatState.setSlot (side : SideRepeatState) (kind : RepeatKind)
    (v : Option RepeatTaskState) : SideRepeatState :=
  match kind with
  | .arrow dir => { side with arrows := side.arrows.set (dirIndex dir) v }
  | .volume axis positive =>
    { side with volume := side.volume.set (stepSlotIndex axis positive) v }
  | .brightness axis positive =>
    { side with brightness := side.brightness.set (stepSlotIndex axis positive) v }

/-- Look up the current state of a task slot (`slot_for`): `none` when
the controller is unknown or the slot is empty. -/
def StickProcessor.slotFor (s : StickProcessor) (id : RepeatTaskId) :
    Option RepeatTaskState :=
  match alistGet id.controller s.controllers with
  | none => none
  | some ctrl =>
    (ctrl.sides.getD (sideIndex id.side) SideRepeatState.init).getSlot id.kind

/-- Overwrite a task slot, creating the controller entry if needed
(the mutation performed via `entry(..).or_default()` / `slot_for_mut`). -/
def StickProcessor.setSlotState (s : StickProcessor) (id : RepeatTaskId)
    (v : Option RepeatTaskState) : StickProcessor :=
  let ctrl := (alistGet id.controller s.controllers).getD ControllerRepeatState.init
  let sideIdx := sideIndex id.side
  let side := ctrl.sides.getD sideIdx SideRepeatState.init
  let ctrl' := { ctrl with sides := ctrl.sides.set sideIdx (side.setSlot id.kind v) }
  { s with controllers := alistUpdate id.controller ctrl' s.controllers }

/-- Advance the sequence counter (`next_seq`): wrapping increment on
`u64`, then replace zero by one, and return the new value. -/
def StickProcessor.nextSeq (s : StickProcessor) : Nat × StickProcessor :=
  let c1 := (s.seqCounter + 1) % u64Size
  let c2 := if c1 = 0 then 1 else c1
  (c2, { s with seqCounter := c2 })

/-- Staleness of a schedule entry (`entry_is_stale`): the slot is gone
or its sequence number has been superseded. -/
def StickProcessor.entryIsStale (s : StickProcessor) (e : SchedEntry) : Bool :=
  match s.slotFor e.id with
  | none => true
  | some st => st.seq != e.seq

/-- Register or refresh a repeat task (`repeater_register`). A fresh
sequence number is precomputed unconditionally, as in the source. The
slot access through `entry(..).or_default()` reads exactly the value
`slot_for` reports (a missing controller entry holds only empty slots)
and its mutation is `setSlotState`. On an occupied slot the parameters
and generation are updated; if any of key, interval, initial delay or
fire-on-activate changed, the slot gets the fresh sequence number and a
new schedule entry is pushed; no immediate action is ever returned. On
an empty slot the task is created, an immediate `KeyTap` is returned
when `fire_on_activate` is set, and a schedule entry is pushed when the
computed due offset is positive. -/
def StickProcessor.repeaterRegister (s : StickProcessor) (reg : RepeatReg)
    (now : Nat) : Option EngineAction × StickProcessor :=
  let seqStep := s.nextSeq
  let seqNew := seqStep.1
  let s1 := seqStep.2
  match s1.slotFor reg.id with
  | some st =>
    let changed := st.key != reg.key || st.intervalMs != reg.intervalMs ||
      st.initialDelayMs != reg.initialDelayMs ||
      st.fireOnActivate != reg.fireOnActivate
    let st1 := { st with
      key := reg.key
      intervalMs := reg.intervalMs
      initialDelayMs := reg.initialDelayMs
      fireOnActivate := reg.fireOnActivate
      lastSeenGeneration := s1.generation }
    let st2 := if changed then { st1 with seq := seqNew } else st1
    let s2 := s1.setSlotState reg.id (some st2)
    if changed then
      let dueMs := if st2.delayDone then st2.intervalMs else st2.initialDelayMs
      if dueMs > 0 then
        (none, { s2 with
          schedule := s2.schedule ++ [⟨now + dueMs, reg.id, st2.seq⟩] })
      else
        (none, s2)
    else
      (none, s2)
  | none =>
    let delayDone := reg.initialDelayMs == 0
    let st : RepeatTaskState :=
      { key := reg.key
        fireOnActivate := reg.fireOnActivate
        initialDelayMs := reg.initialDelayMs
        intervalMs := reg.intervalMs
        lastFire := now
        delayDone := delayDone
        lastSeenGeneration := s1.generation
        seq := seqNew }
    let s2 := s1.setSlotState reg.id (some st)
    let action :=
      if reg.fireOnActivate then
        some (EngineAction.keyTap (KeyCombo.fromKey reg.key))
      else
        none
    let dueMs := if delayDone then reg.intervalMs else reg.initialDelayMs
    if dueMs > 0 then
      (action, { s2 with
        schedule := s2.schedule ++ [⟨now + dueMs, reg.id, seqNew⟩] })
    else
      (action, s2)

/-- Extract an entry of minimal due time from the schedule list (the
`BinaryHeap` pop; the leftmost minimal entry is taken). -/
def heapPopMin : List SchedEntry → Option (SchedEntry × List SchedEntry)
  | [] => none
  | e :: rest =>
    match heapPopMin rest with
    | none => some (e, [])
    | some (m, rest') =>
      if e.due ≤ m.due then some (e, rest) else some (m, e :: rest')

/-- Drain due repeat entries (`process_due_repeats`), with explicit
fuel standing for the unbounded Rust loop. Each iteration pops the
earliest entry; a stale entry is discarded, a due entry whose slot still
carries the entry's sequence number emits a `KeyTap`, updates the slot's
`last_fire` and `delay_done`, and reschedules at `now + interval_ms`;
an entry in the future stops the loop. The boolean result is `true` when
the loop terminated by itself and `false` when the fuel ran out first. -/
def StickProcessor.processDueRepeats :
    Nat → StickProcessor → Nat → List EngineAction × StickProcessor × Bool
  | 0, s, _ => ([], s, false)
  | fuel + 1, s, now =>
    match heapPopMin s.schedule with
    | none => ([], s, true)
    | some (top, rest) =>
      if s.entryIsStale top then
        StickProcessor.processDueRepeats fuel { s with schedule := rest } now
      else if top.due ≤ now then
        let s1 : StickProcessor := { s with schedule := rest }
        match s1.slotFor top.id with
        | some st =>
          if st.seq == top.seq then
            let s2 := s1.setSlotState top.id
              (some { st with lastFire := now, delayDone := true })
            let s3 := { s2 with
          schedule := s2.schedule ++ [⟨now + st.intervalMs, top.id, st.seq⟩] }
            let r := StickProcessor.processDueRepeats fuel s3 now
            (EngineAction.keyTap (KeyCombo.fromKey st.key) :: r.1, r.2.1, r.2.2)
          else
            StickProcessor.processDueRepeats fuel s1 now
        | none =>
          StickProcessor.processDueRepeats fuel s1 now
      else
        ([], s, true)

/-- Parameters of the Arrows stick mode (`ArrowsParams`), deadzone as a
rational standing for the `f32`. -/
structure ArrowsParams where
  deadzone : ℚ
  repeatDelayMs : Nat
  repeatIntervalMs : Nat
  invertX : Bool
  invertY : Bool
deriving DecidableEq, Repr

/-- Parameters of the Volume/Brightness stepper modes
(`StepperParams`). -/
structure StepperParams where
  axis : ProfileAxis
  deadzone : ℚ
  minIntervalMs : Nat
  maxIntervalMs : Nat
  invert : Bool
deriving DecidableEq, Repr

/-- Parameters of the MouseMove mode (`MouseParams`). -/
structure MouseParams where
  deadzone : ℚ
  maxSpeedPxS : ℚ
  gamma : ℚ
  invertX : Bool
  invertY : Bool
deriving DecidableEq, Repr

/-- Parameters of the Scroll mode (`ScrollParams`). -/
structure ScrollParams where
  deadzone : ℚ
  speedLinesS : ℚ
  horizontal : Bool
  invertX : Bool
  invertY : Bool
deriving DecidableEq, Repr

/-- A stick mode with its parameters (`StickMode`). -/
inductive StickMode
  | arrows (params : ArrowsParams)
  | volume (params : StepperParams)
  | brightness (params : StepperParams)
  | mouseMove (params : MouseParams)
  | scroll (params : ScrollParams)
deriving DecidableEq, Repr

/-- Compiled two-slot stick rules (`compiled.rs` `CompiledStickRules`):
index 0 is the left side, index 1 the right side. -/
structure CompiledStickRules where
  sides : List (Option StickMode)
deriving DecidableEq, Repr

/-- Build compiled rules from the per-side map
(`CompiledStickRules::from_rules`). -/
def CompiledStickRules.fromRules (rules : List (StickSide × StickMode)) :
    CompiledStickRules :=
  ⟨[alistGet StickSide.left rules, alistGet StickSide.right rules]⟩

/-- Left-side compiled mode (`CompiledStickRules::left`). -/
def CompiledStickRules.leftMode (c : CompiledStickRules) : Option StickMode :=
  c.sides.getD 0 none

/-- Right-side compiled mode (`CompiledStickRules::right`). -/
def CompiledStickRules.rightMode (c : CompiledStickRules) : Option StickMode :=
  c.sides.getD 1 none

/-- An axes snapshot: the `[f32; 6]` array with fixed indices LeftX=0,
LeftY=1, RightX=2, RightY=3, LeftTrigger=4, RightTrigger=5. -/
abbrev AxesArr : Type := List ℚ

/-- Read the pair of a side out of an axes snapshot (`axes_for_side`). -/
def axesForSide (axes : AxesArr) : StickSide → ℚ × ℚ
  | .left => (axes.getD 0 0, axes.getD 1 0)
  | .right => (axes.getD 2 0, axes.getD 3 0)

/-- Conditional sign flips (`invert_xy`). -/
def invertXY (x y : ℚ) (invertX invertY : Bool) : ℚ × ℚ :=
  (if invertX then -x else x, if invertY then -y else y)

/-- Quantize a stick vector to one of four cardinal directions
(`quantize_direction`): the larger absolute component wins, ties prefer
vertical, the zero vector yields none. -/
def quantizeDirection (x y : ℚ) : Option Direction :=
  let ax := |x|
  let ay := |y|
  if ax = 0 ∧ ay = 0 then none
  else if ax > ay then
    if x > 0 then some Direction.right else some Direction.left
  else if ay > ax then
    if y > 0 then some Direction.up else some Direction.down
  else if y > 0 then some Direction.up
  else if y < 0 then some Direction.down
  else none

/-- Arrow key of a direction (`get_direction_key`). -/
def getDirectionKey : Direction → Key
  | .up => Key.upArrow
  | .down => Key.downArrow
  | .left => Key.leftArrow
  | .right => Key.rightArrow

/-- The per-side direction decision of `tick_arrows`: invert the axes
(`y` is inverted by default), then quantize if the squared magnitude is
not strictly inside the squared deadzone. -/
def arrowsNewDir (params : ArrowsParams) (x0 y0 : ℚ) : Option Direction :=
  let p := invertXY x0 y0 params.invertX (!params.invertY)
  let mag2 := p.1 * p.1 + p.2 * p.2
  let dead2 := params.deadzone * params.deadzone
  if mag2 < dead2 then none else quantizeDirection p.1 p.2

/-- Registration requests collected by one `tick_arrows` pass over the
axes list: for each controller, first the left side, then the right
side, each contributing a request when its direction decision is
positive. -/
def tickArrowsRegs (axesList : List (Nat × AxesArr))
    (bindings : CompiledStickRules) : List RepeatReg :=
  axesList.foldl
    (fun regs entry =>
      let id := entry.1
      let axes := entry.2
      let regs1 :=
        match bindings.leftMode with
        | some (StickMode.arrows params) =>
          let p := axesForSide axes StickSide.left
          match arrowsNewDir params p.1 p.2 with
          | some dir =>
            regs ++ [⟨⟨id, StickSide.left, RepeatKind.arrow dir⟩,
              getDirectionKey dir, true, params.repeatDelayMs,
              params.repeatIntervalMs⟩]
          | none => regs
        | _ => regs
      match bindings.rightMode with
      | some (StickMode.arrows params) =>
        let p := axesForSide axes StickSide.right
        match arrowsNewDir params p.1 p.2 with
        | some dir =>
          regs1 ++ [⟨⟨id, StickSide.right, RepeatKind.arrow dir⟩,
            getDirectionKey dir, true, params.repeatDelayMs,
            params.repeatIntervalMs⟩]
        | none => regs1
      | _ => regs1)
    []

/-- The `tick_arrows` pass (`tick.rs`): collect the registration
requests, then feed each to `repeater_register`, emitting the returned
immediate actions in order. -/
def StickProcessor.tickArrows (s : StickProcessor) (now : Nat)
    (axesList : List (Nat × AxesArr)) (bindings : CompiledStickRules) :
    StickProcessor × List EngineAction :=
  (tickArrowsRegs axesList bindings).foldl
    (fun acc reg =>
      let r := acc.1.repeaterRegister reg now
      match r.1 with
      | some a => (r.2, acc.2 ++ [a])
      | none => (r.2, acc.2))
    (s, [])

/-- A button-to-button remap table (`ControllerSettings`). -/
structure ControllerSettings where
  mapping : List (Button × Button)
deriving DecidableEq, Repr

/-- The default settings: the empty table, which resolves every button
to itself. -/
def ControllerSettings.init : ControllerSettings := ⟨[]⟩

/-- An action bound to a chord (`ButtonAction`). -/
inductive ButtonAction
  | keystroke (k : KeyCombo)
  | macros (m : List KeyCombo)
  | shell (cmd : String)
deriving DecidableEq, Repr

/-- A chord rule (`ButtonRule`): an action and an optional rumble
duration in milliseconds. -/
structure ButtonRule where
  action : ButtonAction
  vibrate : Option Nat
deriving DecidableEq, Repr

/-- Per-application rules (`AppRules`): chord rules and stick modes. -/
structure AppRules where
  buttons : List (Bitmask × ButtonRule)
  sticks : List (StickSide × StickMode)
deriving DecidableEq, Repr

/-- A profile snapshot (`Profile`): controller remaps keyed by
`(vid, pid)`, a blacklist, per-application rules and a shell. -/
structure Profile where
  controllers : List ((Nat × Nat) × ControllerSettings)
  blacklist : List String
  rules : List (String × AppRules)
  shell : String
deriving DecidableEq, Repr

/-- Connection metadata (`ControllerInfo`). -/
structure ControllerInfo where
  id : Nat
  name : String
  supportsRumble : Bool
  vendorId : Nat
  productId : Nat
deriving DecidableEq, Repr

/-- Core-owned controller state (`app/gamacros.rs` `ControllerState`). -/
structure ControllerState where
  mapping : ControllerSettings
  pressed : Bitmask
  rumble : Bool
  axes : AxesArr
deriving DecidableEq, Repr

/-- Phase of a button transition (`ButtonPhase`). -/
inductive ButtonPhase
  | pressed
  | released
deriving DecidableEq, Repr

/-- The core facade state (`app/gamacros.rs` `Gamacros`). The
`axes_scratch` reuse buffer of the source carries no information across
calls and is omitted. -/
structure Gamacros where
  workspace : Option Profile
  activeApp : String
  controllers : List (Nat × ControllerState)
  sticks : StickProcessor
  activeStickRules : Option (List (StickSide × StickMode))
  compiledStickRules : Option CompiledStickRules
deriving DecidableEq, Repr

/-- The freshly constructed core (`Gamacros::new`). -/
def Gamacros.newCore : Gamacros :=
  ⟨none, "", [], StickProcessor.init, none, none⟩

/-- Membership of a controller id (`is_known`). -/
def Gamacros.isKnown (g : Gamacros) (id : Nat) : Bool :=
  (alistGet id g.controllers).isSome

/-- Drop the profile (`remove_workspace`). -/
def Gamacros.removeWorkspace (g : Gamacros) : Gamacros :=
  { g with workspace := none, activeStickRules := none,
           compiledStickRules := none }

/-- Install a profile snapshot (`set_workspace`): store it and, when an
active app is set, recompute the active and compiled stick rules from
the new profile's entry for that app; controller states are not
touched. -/
def Gamacros.setWorkspace (g : Gamacros) (workspace : Profile) : Gamacros :=
  let g1 := { g with workspace := some workspace }
  if g1.activeApp ≠ "" then
    match g1.workspace with
    | some ws =>
      match alistGet g1.activeApp ws.rules with
      | some appRules =>
        { g1 with
          activeStickRules := some appRules.sticks
          compiledStickRules := some (CompiledStickRules.fromRules appRules.sticks) }
      | none =>
        { g1 with activeStickRules := none, compiledStickRules := none }
    | none => g1
  else
    g1

/-- Register a connected controller (`add_controller`): with no profile
installed the call returns immediately; otherwise a fresh
`ControllerState` — remap from the profile's `(vid, pid)` entry or the
default, empty pressed mask, zero axes — is inserted unconditionally,
overwriting any existing entry for the id. -/
def Gamacros.addController (g : Gamacros) (info : ControllerInfo) : Gamacros :=
  match g.workspace with
  | none => g
  | some workspace =>
    let settings := alistGet (info.vendorId, info.productId) workspace.controllers
    let state : ControllerState :=
      { mapping := settings.getD ControllerSettings.init
        pressed := Bitmask.emptyMask
        rumble := info.supportsRumble
        axes := [0, 0, 0, 0, 0, 0] }
    { g with controllers := alistUpdate info.id state g.controllers }

/-- Drop a controller (`remove_controller`). -/
def Gamacros.removeController (g : Gamacros) (id : Nat) : Gamacros :=
  { g with controllers := alistRemove id g.controllers }

/-- Rumble capability lookup (`supports_rumble`). -/
def Gamacros.supportsRumble (g : Gamacros) (id : Nat) : Bool :=
  ((alistGet id g.controllers).map (fun s => s.rumble)).getD false

/-- Switch the active application (`set_active_app`): a no-op when
unchanged; otherwise store it, reset arrow tasks and scroll
accumulators (`on_app_change`), and recompute stick rules. -/
def Gamacros.setActiveApp (g : Gamacros) (app : String) : Gamacros :=
  if g.activeApp = app then g
  else
    let clearSide : SideRepeatState → SideRepeatState := fun sd =>
      { sd with scrollAccum := (0, 0), arrows := [none, none, none, none] }
    let clearCtrl : ControllerRepeatState → ControllerRepeatState := fun c =>
      ⟨c.sides.map clearSide⟩
    let sticks' : StickProcessor := { g.sticks with
      controllers := g.sticks.controllers.map (fun p => (p.1, clearCtrl p.2)) }
    let g1 := { g with activeApp := app, sticks := sticks' }
    match g1.workspace with
    | none => g1
    | some ws =>
      let rules := (alistGet g1.activeApp ws.rules).map (fun r => r.sticks)
      { g1 with
        activeStickRules := rules
        compiledStickRules := rules.map CompiledStickRules.fromRules }

/-- Edge test of a chord between two pressed snapshots (the `fire`
computation of both passes of `on_button_with`): on Pressed, any flip of
the superset status; on Released, a transition from held to not
held. -/
def fires (phase : ButtonPhase) (prevPressed nowPressed target : Bitmask) : Bool :=
  let was := prevPressed.isSuperset target
  let isNow := nowPressed.isSuperset target
  match phase with
  | .pressed => was != isNow
  | .released => was && !isNow

/-- First pass of `on_button_with`: the maximum popcount among the
chords that fire (zero when none fires). -/
def maxFiredBits (phase : ButtonPhase) (prevPressed nowPressed : Bitmask)
    (buttons : List (Bitmask × ButtonRule)) : Nat :=
  buttons.foldl
    (fun maxBits tr =>
      if fires phase prevPressed nowPressed tr.1 ∧ tr.1.count > maxBits then
        tr.1.count
      else maxBits)
    0

/-- Emission of a single winning rule in the second pass of
`on_button_with`: on Pressed, an optional rumble (gated on capability)
followed by the action's event; on Released, only a keystroke emits a
key-release. -/
def ruleEmission (g : Gamacros) (id : Nat) (phase : ButtonPhase)
    (rule : ButtonRule) : List EngineAction :=
  match phase with
  | .pressed =>
    (match rule.vibrate with
     | some ms => if g.supportsRumble id then [EngineAction.rumble id ms] else []
     | none => []) ++
    (match rule.action with
     | .keystroke k => [EngineAction.keyPress k]
     | .macros m => [EngineAction.macros m]
     | .shell cmd => [EngineAction.shell cmd])
  | .released =>
    match rule.action with
    | .keystroke k => [EngineAction.keyRelease k]
    | _ => []

/-- Button handling (`on_button_with`). The call returns without
touching any state when no profile is installed or the active app has
no rule set; an unknown controller id is the source's `expect` panic,
modelled as `none`. Otherwise the remapped button is inserted into or
removed from the pressed mask, and the two-pass resolution emits the
actions of every firing chord of maximal popcount. -/
def Gamacros.onButtonWith (g : Gamacros) (id : Nat) (button : Button)
    (phase : ButtonPhase) : Option (Gamacros × List EngineAction) :=
  match g.workspace with
  | none => some (g, [])
  | some workspace =>
    match alistGet g.activeApp workspace.rules with
    | none => some (g, [])
    | some appRules =>
      match alistGet id g.controllers with
      | none => none
      | some state =>
        let button' := (alistGet button state.mapping.mapping).getD button
        let prevPressed := state.pressed
        let nowPressed :=
          if phase = ButtonPhase.pressed then prevPressed.insertBtn button'
          else prevPressed.removeBtn button'
        let state' := { state with pressed := nowPressed }
        let g' := { g with controllers := alistUpdate id state' g.controllers }
        let maxBits := maxFiredBits phase prevPressed nowPressed appRules.buttons
        if maxBits = 0 then some (g', [])
        else
          some (g',
            appRules.buttons.foldl
              (fun acc tr =>
                if fires phase prevPressed nowPressed tr.1 ∧
                    tr.1.count = maxBits then
                  acc ++ ruleEmission g' id phase tr.2
                else acc)
              [])

/-- Universal property over every task state held in an occupied slot
of one side state. -/
def sideSlotsP (P : RepeatTaskState → Prop) (sd : SideRepeatState) : Prop :=
  ∀ o ∈ sd.arrows ++ sd.volume ++ sd.brightness, ∀ st, o = some st → P st

/-- Universal property over every task state held in an occupied slot
of the processor. -/
def StickProcessor.allSlots (s : StickProcessor) (P : RepeatTaskState → Prop) :
    Prop :=
  ∀ p ∈ s.controllers, ∀ sd ∈ p.2.sides, sideSlotsP P sd

/-- Sequence-number sanity: every occupied slot and every schedule
entry carries a non-zero `seq`. -/
def StickProcessor.seqInv (s : StickProcessor) : Prop :=
  s.allSlots (fun st => st.seq ≠ 0) ∧ ∀ e ∈ s.schedule, e.seq ≠ 0

/-- Every occupied slot has a positive repeat interval. -/
def StickProcessor.intervalsPos (s : StickProcessor) : Prop :=
  s.allSlots (fun st => 0 < st.intervalMs)

/-- Number of schedule entries due at or before `now`. -/
def dueCount (schedule : List SchedEntry) (now : Nat) : Nat :=
  schedule.countP (fun e => decide (e.due ≤ now))

/-- Keystroke used by the resolution scenario: the combo of the single
printable key parsed from `"x"` (scan code 7). -/
def kcX : KeyCombo := ⟨Modifiers.emptyMods, [Key.other 7]⟩

/-- Keystroke used by the resolution scenario: the combo of the single
printable key parsed from `"y"` (scan code 16). -/
def kcY : KeyCombo := ⟨Modifiers.emptyMods, [Key.other 16]⟩

/-- Chord of the single button `A`. -/
def chordA : Bitmask := Bitmask.ofList [Button.a]

/-- Chord of `LeftShoulder + A`. -/
def chordLSA : Bitmask := Bitmask.ofList [Button.leftShoulder, Button.a]

/-- Rules of the scenario app `demo`: `A → Keystroke "x"` and
`LeftShoulder+A → Keystroke "y"`, no stick modes. -/
def demoRules : AppRules :=
  ⟨[(chordA, ⟨ButtonAction.keystroke kcX, none⟩),
    (chordLSA, ⟨ButtonAction.keystroke kcY, none⟩)], []⟩

/-- Remap table sending `A` to `B`. -/
def settingsAB : ControllerSettings := ⟨[(Button.a, Button.b)]⟩

/-- Profile carrying the `demo` rules and an `A → B` remap for the
controller `(0x1234, 0x5678)`. -/
def profileRemap : Profile :=
  ⟨[((0x1234, 0x5678), settingsAB)], [], [("demo", demoRules)], "/bin/sh"⟩

/-- Profile carrying the `demo` rules and no controller entry. -/
def profileNoRemap : Profile :=
  ⟨[], [], [("demo", demoRules)], "/bin/sh"⟩

/-- The scenario controller `(vid 0x1234, pid 0x5678)`, id 1, with
rumble support. -/
def info1 : ControllerInfo := ⟨1, "pad", true, 0x1234, 0x5678⟩

/-- Core state of the chord-resolution scenario: profile without remap
installed, app `demo` active, controller 1 connected. -/
def gChord : Gamacros :=
  ((Gamacros.newCore.setWorkspace profileNoRemap).setActiveApp
    "demo").addController info1

/-- Core state of the hot-swap scenario: profile with the `A → B` remap
installed, app `demo` active, controller 1 connected. -/
def gRemap : Gamacros :=
  ((Gamacros.newCore.setWorkspace profileRemap).setActiveApp
    "demo").addController info1

/-- `gRemap` after pressing `A` (which the remap turns into `B`, so the
pressed mask holds `B`). -/
def gRemapPressed : Gamacros :=
  ((gRemap.onButtonWith 1 Button.a ButtonPhase.pressed).getD
    (Gamacros.newCore, [])).1

/-- `gChord` with the profile removed again: the controller stays
known, the workspace is gone. -/
def gNoProfile : Gamacros := gChord.removeWorkspace

/-- `gChord` after pressing `LeftShoulder`. -/
def gChordLS : Gamacros :=
  ((gChord.onButtonWith 1 Button.leftShoulder ButtonPhase.pressed).getD
    (Gamacros.newCore, [])).1

/-- Arrows parameters at deadzone `1/2` (exactly representable in
`f32`), delay 300 ms, interval 50 ms, no inversion. -/
def arrowsHalf : ArrowsParams := ⟨(1 : ℚ)/2, 300, 50, false, false⟩

/-- Compiled rules with Arrows on the left stick only. -/
def bindingsArrows : CompiledStickRules :=
  ⟨[some (StickMode.arrows arrowsHalf), none]⟩

/-- Axes snapshot whose left-stick vector `(1/2, 0)` has squared
magnitude exactly `deadzone²`. -/
def axesBoundary : List (Nat × AxesArr) := [(1, [(1 : ℚ)/2, 0, 0, 0, 0, 0])]

/-- Slot identity of the right-arrow task of controller 1, left side. -/
def idArrowRight : RepeatTaskId :=
  ⟨1, StickSide.left, RepeatKind.arrow Direction.right⟩

/-- Registration of the staleness scenario: right-arrow task, fire on
activate, no initial delay, 100 ms interval. -/
def regInterval100 : RepeatReg :=
  ⟨idArrowRight, Key.rightArrow, true, 0, 100⟩

/-- Re-registration of the staleness scenario with a 30 ms interval. -/
def regInterval30 : RepeatReg :=
  ⟨idArrowRight, Key.rightArrow, true, 0, 30⟩

/-- Scheduler state after registering the 100 ms task at `t = 0`. -/
def schedAfterFirst : StickProcessor :=
  (StickProcessor.init.repeaterRegister regInterval100 0).2

/-- Scheduler state after re-registering the slot with a 30 ms interval
at `t = 10`. -/
def schedAfterSecond : StickProcessor :=
  (schedAfterFirst.repeaterRegister regInterval30 10).2

/-- The staleness-scenario state with only the superseded first entry
left on the schedule: its minimal entry is stale. -/
def schedStaleOnly : StickProcessor :=
  { schedAfterSecond with schedule := [⟨100, idArrowRight, 1⟩] }

/-- A right-arrow task slot with interval 0, already past its delay. -/
def taskZeroInterval : RepeatTaskState :=
  ⟨Key.rightArrow, true, 0, 0, 0, true, 0, 1⟩

/-- Scheduler state holding one zero-interval task due at `t = 0`,
whose schedule entry carries the slot's current sequence number. -/
def schedZeroInterval : StickProcessor :=
  ⟨[(1, ⟨[⟨(0, 0), [none, none, none, some taskZeroInterval],
          [none, none, none, none], [none, none, none, none]⟩,
        SideRepeatState.init]⟩)],
   0, [⟨0, idArrowRight, 1⟩], 1⟩

/-- Lookup success names a member of the association list. -/
theorem alistGet_mem {α β : Type} [DecidableEq α] {k : α} {v : β} :
    ∀ {l : List (α × β)}, alistGet k l = some v → (k, v) ∈ l := by
  intro l
  induction l with
  | nil => intro h; simp [alistGet] at h
  | cons p rest ih =>
    intro h
    rw [List.mem_cons]
    by_cases hk : p.1 = k
    · simp [alistGet, hk] at h
      left
      simp [Prod.ext_iff, hk.symm, h.symm]
    · simp [alistGet, hk] at h
      right
      exact ih h

/-- Every member of an updated association list is the new pair or an
old member. -/
theorem alistUpdate_mem {α β : Type} [DecidableEq α] {k : α} {v : β}
    {q : α × β} :
    ∀ {l : List (α × β)}, q ∈ alistUpdate k v l → q = (k, v) ∨ q ∈ l := by
  intro l
  induction l with
  | nil => intro h; simp [alistUpdate] at h; left; exact h
  | cons p rest ih =>
    intro h
    by_cases hk : p.1 = k
    · simp [alistUpdate, hk, List.mem_cons] at h
      rcases h with h | h
      · left; exact h
      · right; rw [List.mem_cons]; right; exact h
    · simp [alistUpdate, hk, List.mem_cons] at h
      rcases h with h | h
      · right; rw [List.mem_cons]; left; exact h
      · rcases ih h with h' | h'
        · left; exact h'
        · right; rw [List.mem_cons]; right; exact h'

/-- A `getD` result is a member of the list or the default. -/
theorem list_getD_mem_or {α : Type} :
    ∀ (l : List α) (i : Nat) (d : α), l.getD i d ∈ l ∨ l.getD i d = d := by
  intro l
  induction l with
  | nil => intro i d; right; simp
  | cons a rest ih =>
    intro i d
    cases i with
    | zero => left; simp
    | succ j =>
      rcases ih j d with h | h
      · left; simpa using Or.inr h
      · right; simpa using h

/-- The bounded popcount vanishes exactly on zero, for inputs below the
fuel's range. -/
theorem popCountFuel_eq_zero :
    ∀ (fuel n : Nat), n < 2 ^ fuel → (popCountFuel fuel n = 0 ↔ n = 0) := by
  intro fuel
  induction fuel with
  | zero =>
    intro n hn
    interval_cases n
    simp [popCountFuel]
  | succ f ih =>
    intro n hn
    by_cases h0 : n = 0
    · simp [h0, popCountFuel]
    · simp only [popCountFuel, h0, if_false]
      constructor
      · intro h
        have h2 : popCountFuel f (n / 2) = 0 ∧ n % 2 = 0 := by omega
        have hlt : n / 2 < 2 ^ f := by
          have : 2 ^ (f + 1) = 2 ^ f * 2 := by ring
          omega
        have := (ih (n / 2) hlt).mp h2.1
        omega
      · intro h; exact h.elim

/-- A chord with zero bits never fires: both snapshots are supersets of
the empty mask. -/
theorem fires_zero (phase : ButtonPhase) (prevP nowP : Bitmask) :
    fires phase prevP nowP ⟨0⟩ = false := by
  cases phase <;>
    simp [fires, Bitmask.isSuperset, Bitmask.isSubset, Nat.zero_and]

/-- Splitting never yields the empty list of parts. -/
theorem splitPlus_ne_nil : ∀ cs : List Char, splitPlus cs ≠ [] := by
  intro cs
  induction cs with
  | nil => simp [splitPlus]
  | cons c rest ih =>
    by_cases hc : c = '+'
    · simp [splitPlus, hc]
    · simp only [splitPlus, hc, if_false]
      cases h : splitPlus rest with
      | nil => simp
      | cons p ps => simp

/-- A trailing separator appends exactly one empty part. -/
theorem splitPlus_append_plus :
    ∀ cs : List Char, splitPlus (cs ++ ['+']) = splitPlus cs ++ [[]] := by
  intro cs
  induction cs with
  | nil => simp [splitPlus]
  | cons c rest ih =>
    by_cases hc : c = '+'
    · simp [splitPlus, hc, ih]
    · simp only [List.cons_append, splitPlus, hc, if_false, List.append_eq]
      rw [ih]
      cases h : splitPlus rest with
      | nil => exact absurd h (splitPlus_ne_nil rest)
      | cons p ps => simp [h]

/-- The visitor loop fails whenever some part fails to parse. -/
theorem visitStrLoop_fail :
    ∀ (parts : List (List Char)) (mods : Modifiers) (keys : List Key),
      (∃ part ∈ parts, parseKey (trimChars part) = none) →
      visitStrLoop mods keys parts = none := by
  intro parts
  induction parts with
  | nil => intro mods keys h; simp at h
  | cons part rest ih =>
    intro mods keys h
    cases hp : parseKey (trimChars part) with
    | none => simp [visitStrLoop, hp]
    | some k =>
      have hrest : ∃ q ∈ rest, parseKey (trimChars q) = none := by
        rcases h with ⟨q, hq, hqn⟩
        rcases List.mem_cons.mp hq with hq' | hq'
        · subst hq'; rw [hp] at hqn; exact absurd hqn (by simp)
        · exact ⟨q, hq', hqn⟩
      simp only [visitStrLoop, hp]
      split_ifs <;> exact ih _ _ hrest

/-- The empty side state has no occupied slot. -/
theorem getSlot_init (kind : RepeatKind) :
    SideRepeatState.init.getSlot kind = none := by
  cases kind with
  | arrow dir => cases dir <;> rfl
  | volume axis positive => cases axis <;> cases positive <;> rfl
  | brightness axis positive => cases axis <;> cases positive <;> rfl

/-- Every slot predicate holds vacuously on the empty side state. -/
theorem sideSlotsP_init (P : RepeatTaskState → Prop) :
    sideSlotsP P SideRepeatState.init := by
  intro o ho st host
  simp [SideRepeatState.init] at ho
  subst ho
  simp at host

/-- Overwriting one slot with a state satisfying `P` preserves a slot
predicate on a side. -/
theorem sideSlotsP_setSlot {P : RepeatTaskState → Prop} {sd : SideRepeatState}
    (hsd : sideSlotsP P sd) {st' : RepeatTaskState} (hst : P st')
    (kind : RepeatKind) : sideSlotsP P (sd.setSlot kind (some st')) := by
  intro o ho st host
  cases kind with
  | arrow dir =>
    simp only [SideRepeatState.setSlot, List.mem_append] at ho
    rcases ho with (ho | ho) | ho
    · rcases List.mem_or_eq_of_mem_set ho with h | h
      · exact hsd o (by simp [List.mem_append]; tauto) st host
      · subst h; cases host; exact hst
    · exact hsd o (by simp [List.mem_append]; tauto) st host
    · exact hsd o (by simp [List.mem_append]; tauto) st host
  | volume axis positive =>
    simp only [SideRepeatState.setSlot, List.mem_append] at ho
    rcases ho with (ho | ho) | ho
    · exact hsd o (by simp [List.mem_append]; tauto) st host
    · rcases List.mem_or_eq_of_mem_set ho with h | h
      · exact hsd o (by simp [List.mem_append]; tauto) st host
      · subst h; cases host; exact hst
    · exact hsd o (by simp [List.mem_append]; tauto) st host
  | brightness axis positive =>
    simp only [SideRepeatState.setSlot, List.mem_append] at ho
    rcases ho with (ho | ho) | ho
    · exact hsd o (by simp [List.mem_append]; tauto) st host
    · exact hsd o (by simp [List.mem_append]; tauto) st host
    · rcases List.mem_or_eq_of_mem_set ho with h | h
      · exact hsd o (by simp [List.mem_append]; tauto) st host
      · subst h; cases host; exact hst

/-- A successful `slot_for` lookup yields a state covered by any
processor-wide slot predicate. -/
theorem allSlots_slotFor {P : RepeatTaskState → Prop} {s : StickProcessor}
    {id : RepeatTaskId} {st : RepeatTaskState} (hall : s.allSlots P)
    (h : s.slotFor id = some st) : P st := by
  unfold StickProcessor.slotFor at h
  cases hget : alistGet id.controller s.controllers with
  | none => rw [hget] at h; simp at h
  | some ctrl =>
    rw [hget] at h
    have hctrl := alistGet_mem hget
    have hsdP : sideSlotsP P (ctrl.sides.getD (sideIndex id.side)
        SideRepeatState.init) := by
      rcases list_getD_mem_or ctrl.sides (sideIndex id.side)
          SideRepeatState.init with hm | hm
      · exact hall _ hctrl _ hm
      · rw [hm]; exact sideSlotsP_init P
    set sd := ctrl.sides.getD (sideIndex id.side) SideRepeatState.init with hsd
    cases hk : id.kind with
    | arrow dir =>
      rw [hk] at h
      simp only [SideRepeatState.getSlot] at h
      rcases list_getD_mem_or sd.arrows (dirIndex dir) none with hm | hm
      · rw [h] at hm
        exact hsdP _ (by simp [List.mem_append]; tauto) st rfl
      · rw [h] at hm; simp at hm
    | volume axis positive =>
      rw [hk] at h
      simp only [SideRepeatState.getSlot] at h
      rcases list_getD_mem_or sd.volume (stepSlotIndex axis positive) none
          with hm | hm
      · rw [h] at hm
        exact hsdP _ (by simp [List.mem_append]; tauto) st rfl
      · rw [h] at hm; simp at hm
    | brightness axis positive =>
      rw [hk] at h
      simp only [SideRepeatState.getSlot] at h
      rcases list_getD_mem_or sd.brightness (stepSlotIndex axis positive) none
          with hm | hm
      · rw [h] at hm
        exact hsdP _ (by simp [List.mem_append]; tauto) st rfl
      · rw [h] at hm; simp at hm

/-- Writing a state satisfying `P` into a slot preserves a
processor-wide slot predicate. -/
theorem allSlots_setSlotState {P : RepeatTaskState → Prop}
    {s : StickProcessor} {id : RepeatTaskId} {st' : RepeatTaskState}
    (hall : s.allSlots P) (hst : P st') :
    (s.setSlotState id (some st')).allSlots P := by
  have hctrlP : ∀ sd ∈ ((alistGet id.controller s.controllers).getD
      ControllerRepeatState.init).sides, sideSlotsP P sd := by
    cases hget : alistGet id.controller s.controllers with
    | none =>
      intro sd hsd
      simp [ControllerRepeatState.init] at hsd
      rw [hsd]
      exact sideSlotsP_init P
    | some ctrl =>
      intro sd hsd
      exact hall _ (alistGet_mem hget) _ hsd
  intro p hp sd hsd
  unfold StickProcessor.setSlotState at hp
  rcases alistUpdate_mem hp with hpnew | hpold
  · subst hpnew
    simp only at hsd
    rcases List.mem_or_eq_of_mem_set hsd with hm | hm
    · exact hctrlP _ hm
    · subst hm
      apply sideSlotsP_setSlot _ hst
      rcases list_getD_mem_or ((alistGet id.controller s.controllers).getD
          ControllerRepeatState.init).sides (sideIndex id.side)
          SideRepeatState.init with hm2 | hm2
      · exact hctrlP _ hm2
      · rw [hm2]; exact sideSlotsP_init P
  · exact hall p hpold sd hsd

/-- Advancing the sequence counter does not move any slot. -/
theorem slotFor_nextSeq (s : StickProcessor) (id : RepeatTaskId) :
    s.nextSeq.2.slotFor id = s.slotFor id := rfl

/-- An empty pop means an empty schedule. -/
theorem heapPopMin_eq_none :
    ∀ l : List SchedEntry, heapPopMin l = none ↔ l = [] := by
  intro l
  cases l with
  | nil => simp [heapPopMin]
  | cons e rest =>
    simp only [heapPopMin]
    cases h : heapPopMin rest with
    | none => simp
    | some p => cases p with | mk m rest' => by_cases hle : e.due ≤ m.due <;> simp [hle]

/-- The popped entry together with the remainder is a permutation of
the schedule. -/
theorem heapPopMin_perm :
    ∀ {l : List SchedEntry} {m : SchedEntry} {rest : List SchedEntry},
      heapPopMin l = some (m, rest) → l.Perm (m :: rest) := by
  intro l
  induction l with
  | nil => intro m rest h; simp [heapPopMin] at h
  | cons e tail ih =>
    intro m rest h
    simp only [heapPopMin] at h
    cases htail : heapPopMin tail with
    | none =>
      rw [htail] at h
      simp at h
      rw [(heapPopMin_eq_none tail).mp htail]
      rw [h.1, h.2]
    | some p =>
      cases p with
      | mk m' rest' =>
        rw [htail] at h
        by_cases hle : e.due ≤ m'.due
        · simp [hle] at h
          rw [h.1, h.2]
        · simp [hle] at h
          rw [← h.1, ← h.2]
          exact ((ih htail).cons e).trans (List.Perm.swap m' e rest')

/-- C9. Parsing a `KeyCombo` from a string rejects the empty string and
any string with a trailing `+` (the split produces an empty component,
which the key parser rejects), and in general fails whenever any
`+`-separated component fails to parse as a key. -/
theorem C9_combo_parse_errors :
    keyComboFromChars [] = none
    ∧ (∀ cs : List Char, keyComboFromChars (cs ++ ['+']) = none)
    ∧ (∀ cs : List Char,
        (∃ part ∈ splitPlus cs, parseKey (trimChars part) = none) →
        keyComboFromChars cs = none) := by
  refine ⟨rfl, ?_, ?_⟩
  · intro cs
    unfold keyComboFromChars
    rw [splitPlus_append_plus]
    apply visitStrLoop_fail
    exact ⟨[], by simp, rfl⟩
  · intro cs h
    exact visitStrLoop_fail _ _ _ h

/-- Witness for C9: the concrete string `ctrl+fooo` has a component
that fails to parse, and the parse fails. -/
theorem C9_combo_parse_errors_witness :
    (∃ part ∈ splitPlus ("ctrl+fooo".data),
      parseKey (trimChars part) = none)
    ∧ keyComboFromChars ("ctrl+fooo".data) = none :=
  ⟨by decide, C9_combo_parse_errors.2.2 _ (by decide)⟩

/-- C7. Registering over an occupied slot never returns an immediate
action (in particular, repeated registration with identical parameters
returns `none`); only the slot-creation path can return one, and then
it is exactly the `KeyTap` of the registered key, gated on
`fire_on_activate`. -/
theorem C7_register_immediate_tap_once :
    (∀ (s : StickProcessor) (reg : RepeatReg) (now : Nat)
      (st : RepeatTaskState), s.slotFor reg.id = some st →
      (s.repeaterRegister reg now).1 = none)
    ∧ (∀ (s : StickProcessor) (reg : RepeatReg) (now : Nat)
        (a : EngineAction), (s.repeaterRegister reg now).1 = some a →
        s.slotFor reg.id = none ∧ reg.fireOnActivate = true ∧
          a = EngineAction.keyTap (KeyCombo.fromKey reg.key)) := by
  constructor
  · intro s reg now st h
    simp only [StickProcessor.repeaterRegister, slotFor_nextSeq, h]
    split_ifs <;> rfl
  · intro s reg now a h
    cases hslot : s.slotFor reg.id with
    | some st =>
      simp only [StickProcessor.repeaterRegister, slotFor_nextSeq, hslot] at h
      split_ifs at h
    | none =>
      simp only [StickProcessor.repeaterRegister, slotFor_nextSeq, hslot] at h
      by_cases hfoa : reg.fireOnActivate = true
      · refine ⟨rfl, hfoa, ?_⟩
        simp only [hfoa, if_true] at h
        split_ifs at h <;> simp_all
      · simp only [hfoa, if_false] at h
        split_ifs at h <;> simp_all

/-- Witness for C7: applied to the staleness-scenario state, whose
right-arrow slot is occupied, registration returns no action. -/
theorem C7_register_immediate_tap_once_witness :
    (schedAfterFirst.slotFor idArrowRight =
      some ⟨Key.rightArrow, true, 0, 100, 0, true, 0, 1⟩)
    ∧ (schedAfterFirst.repeaterRegister regInterval30 10).1 = none :=
  ⟨by decide,
    C7_register_immediate_tap_once.1 schedAfterFirst regInterval30 10
      ⟨Key.rightArrow, true, 0, 100, 0, true, 0, 1⟩ (by decide)⟩

/-- C6. Re-registering the occupied right-arrow slot with a changed
interval assigns the fresh sequence number 2 and pushes a new heap
entry at `t = 40` while the old `t = 100` entry keeps sequence number
1; a pass of `process_due_repeats` discards any minimal stale entry
without emitting; and draining at `now = 50` emits exactly one
`KeyTap`, the superseded `t = 100` entry being stale. -/
theorem C6_schedule_staleness :
    (schedAfterSecond.slotFor idArrowRight =
      some ⟨Key.rightArrow, true, 0, 30, 0, true, 0, 2⟩
    ∧ schedAfterSecond.schedule =
      [⟨100, idArrowRight, 1⟩, ⟨40, idArrowRight, 2⟩])
    ∧ (∀ (fuel : Nat) (s : StickProcessor) (now : Nat) (top : SchedEntry)
        (rest : List SchedEntry),
        heapPopMin s.schedule = some (top, rest) →
        s.entryIsStale top = true →
        StickProcessor.processDueRepeats (fuel + 1) s now =
          StickProcessor.processDueRepeats fuel { s with schedule := rest } now)
    ∧ ((StickProcessor.processDueRepeats 10 schedAfterSecond 50).1 =
        [EngineAction.keyTap (KeyCombo.fromKey Key.rightArrow)]
    ∧ (StickProcessor.processDueRepeats 10 schedAfterSecond 50).2.2 = true
    ∧ schedAfterSecond.entryIsStale ⟨100, idArrowRight, 1⟩ = true) := by
  refine ⟨⟨by decide, by decide⟩, ?_, by decide, by decide, by decide⟩
  intro fuel s now top rest hpop hstale
  simp only [StickProcessor.processDueRepeats]
  rw [hpop]
  simp [hstale]

/-- Witness for C6: on the concrete state whose only (hence minimal)
schedule entry is the superseded one, a drain step just discards it. -/
theorem C6_schedule_staleness_witness :
    (heapPopMin schedStaleOnly.schedule =
      some (⟨100, idArrowRight, 1⟩, [])
    ∧ schedStaleOnly.entryIsStale ⟨100, idArrowRight, 1⟩ = true)
    ∧ StickProcessor.processDueRepeats 1 schedStaleOnly 50 =
        StickProcessor.processDueRepeats 0
          { schedStaleOnly with schedule := [] } 50 :=
  ⟨⟨by decide, by decide⟩,
    C6_schedule_staleness.2.1 0 schedStaleOnly 50 ⟨100, idArrowRight, 1⟩ []
      (by decide) (by decide)⟩

/-- The Arrows decision at the concrete boundary input: the vector
`(1/2, 0)` with deadzone `1/2` quantizes to the rightward direction. -/
theorem arrowsNewDir_boundary :
    arrowsNewDir arrowsHalf ((1 : ℚ)/2) 0 = some Direction.right := by
  unfold arrowsNewDir invertXY quantizeDirection
  norm_num [arrowsHalf]

/-- The boundary tick collects exactly one registration request: the
right-arrow task of controller 1's left stick. -/
theorem tickArrowsRegs_boundary :
    tickArrowsRegs axesBoundary bindingsArrows =
      [⟨idArrowRight, Key.rightArrow, true, 300, 50⟩] := by
  have h := arrowsNewDir_boundary
  simp only [arrowsHalf, one_div] at h
  simp [tickArrowsRegs, axesBoundary, bindingsArrows,
    CompiledStickRules.leftMode, CompiledStickRules.rightMode, axesForSide,
    getDirectionKey, idArrowRight, arrowsHalf, h]

/-- The boundary tick registers the collected request and emits its
immediate `KeyTap`. -/
theorem tickArrows_boundary :
    StickProcessor.init.tickArrows 0 axesBoundary bindingsArrows =
      ((StickProcessor.init.repeaterRegister
          ⟨idArrowRight, Key.rightArrow, true, 300, 50⟩ 0).2,
       [EngineAction.keyTap (KeyCombo.fromKey Key.rightArrow)]) := by
  unfold StickProcessor.tickArrows
  rw [tickArrowsRegs_boundary]
  simp only [List.foldl_cons, List.foldl_nil]
  have haction : (StickProcessor.init.repeaterRegister
      ⟨idArrowRight, Key.rightArrow, true, 300, 50⟩ 0).1 =
      some (EngineAction.keyTap (KeyCombo.fromKey Key.rightArrow)) := by decide
  rw [haction]
  simp

/-- Counterexample to C5 as stated: on an Arrows tick whose inverted
left-stick vector has squared magnitude exactly `deadzone²`, a repeat
task IS registered and a `KeyTap` IS emitted — the inside-deadzone test
`mag² < deadzone²` is strict, so the boundary counts as outside. -/
theorem C5_arrows_boundary_counterexample :
    ((1 : ℚ)/2 * ((1 : ℚ)/2) + 0 * 0 =
      arrowsHalf.deadzone * arrowsHalf.deadzone)
    ∧ (StickProcessor.init.tickArrows 0 axesBoundary bindingsArrows).2 =
      [EngineAction.keyTap (KeyCombo.fromKey Key.rightArrow)]
    ∧ ((StickProcessor.init.tickArrows 0 axesBoundary
        bindingsArrows).1.slotFor idArrowRight).isSome = true := by
  refine ⟨by norm_num [arrowsHalf], ?_, ?_⟩
  · rw [tickArrows_boundary]
  · rw [tickArrows_boundary]
    decide

/-- C5 amended: at squared magnitude exactly equal to `deadzone²` the
Arrows decision is NOT suppressed — the direction is quantized as for
any point outside the deadzone — and on the concrete boundary tick the
task is created (delay 300 ms, interval 50 ms, fresh seq 1). -/
theorem C5_arrows_boundary :
    (∀ (params : ArrowsParams) (x0 y0 : ℚ),
      (invertXY x0 y0 params.invertX (!params.invertY)).1 *
          (invertXY x0 y0 params.invertX (!params.invertY)).1 +
        (invertXY x0 y0 params.invertX (!params.invertY)).2 *
          (invertXY x0 y0 params.invertX (!params.invertY)).2 =
        params.deadzone * params.deadzone →
      arrowsNewDir params x0 y0 =
        quantizeDirection (invertXY x0 y0 params.invertX (!params.invertY)).1
          (invertXY x0 y0 params.invertX (!params.invertY)).2)
    ∧ (StickProcessor.init.tickArrows 0 axesBoundary
        bindingsArrows).1.slotFor idArrowRight =
      some ⟨Key.rightArrow, true, 300, 50, 0, false, 0, 1⟩ := by
  constructor
  · intro params x0 y0 hb
    unfold arrowsNewDir
    simp only [hb, lt_irrefl, if_false]
  · rw [tickArrows_boundary]
    decide

/-- Witness for C5: the amended boundary rule applied at the concrete
boundary input yields the quantized direction. -/
theorem C5_arrows_boundary_witness :
    ((invertXY ((1 : ℚ)/2) 0 arrowsHalf.invertX (!arrowsHalf.invertY)).1 *
        (invertXY ((1 : ℚ)/2) 0 arrowsHalf.invertX (!arrowsHalf.invertY)).1 +
      (invertXY ((1 : ℚ)/2) 0 arrowsHalf.invertX (!arrowsHalf.invertY)).2 *
        (invertXY ((1 : ℚ)/2) 0 arrowsHalf.invertX (!arrowsHalf.invertY)).2 =
      arrowsHalf.deadzone * arrowsHalf.deadzone)
    ∧ arrowsNewDir arrowsHalf ((1 : ℚ)/2) 0 =
      quantizeDirection
        (invertXY ((1 : ℚ)/2) 0 arrowsHalf.invertX (!arrowsHalf.invertY)).1
        (invertXY ((1 : ℚ)/2) 0 arrowsHalf.invertX (!arrowsHalf.invertY)).2 :=
  ⟨by norm_num [invertXY, arrowsHalf],
    C5_arrows_boundary.1 arrowsHalf ((1 : ℚ)/2) 0
      (by norm_num [invertXY, arrowsHalf])⟩

/-- Updating a key makes it resolve to the new value. -/
theorem alistGet_update_self {α β : Type} [DecidableEq α] (k : α) (v : β) :
    ∀ l : List (α × β), alistGet k (alistUpdate k v l) = some v := by
  intro l
  induction l with
  | nil => simp [alistUpdate, alistGet]
  | cons p rest ih =>
    by_cases hk : p.1 = k
    · simp [alistUpdate, hk, alistGet]
    · simp [alistUpdate, hk, alistGet, ih]

/-- Re-inserting the same binding is a no-op. -/
theorem alistUpdate_idem {α β : Type} [DecidableEq α] (k : α) (v : β) :
    ∀ l : List (α × β), alistUpdate k v (alistUpdate k v l) = alistUpdate k v l := by
  intro l
  induction l with
  | nil => simp [alistUpdate]
  | cons p rest ih =>
    by_cases hk : p.1 = k
    · simp [alistUpdate, hk]
    · simp [alistUpdate, hk, ih]

/-- Counterexample to C2 as stated: after swapping in a profile without
an entry for the controller's `(vid, pid)`, a subsequent `A` press still
resolves through the OLD `A → B` remap, not the identity. -/
theorem C2_remap_counterexample :
    (alistGet (info1.vendorId, info1.productId) profileNoRemap.controllers =
      none)
    ∧ ((gRemap.setWorkspace profileNoRemap).onButtonWith 1 Button.a
        ButtonPhase.pressed).map
        (fun r => (alistGet 1 r.1.controllers).map (fun st => st.pressed)) =
      some (some (Bitmask.ofList [Button.b]))
    ∧ Bitmask.ofList [Button.b] ≠ Bitmask.ofList [Button.a] := by decide

/-- C2 amended: `set_workspace` preserves every `ControllerState` entry
unchanged — the pressed bitmask AND the remap; the remap is only
recomputed from the new profile when `add_controller` runs again. In
the concrete hot-swap scenario the pressed mask (holding `B`) and the
old `A → B` remap both survive the swap. -/
theorem C2_profile_swap :
    (∀ (g : Gamacros) (p : Profile),
      (g.setWorkspace p).controllers = g.controllers)
    ∧ (alistGet 1 (gRemapPressed.setWorkspace profileNoRemap).controllers).map
        (fun st => (st.pressed, st.mapping)) =
      some (Bitmask.ofList [Button.b], settingsAB) := by
  constructor
  · intro g p
    simp only [Gamacros.setWorkspace]
    split_ifs with h
    · split <;> rfl
    · rfl
  · decide

/-- Counterexample to C3 as stated: with a known controller but no
profile installed, `on_button` returns before touching the state — the
pressed bitmask is NOT updated. -/
theorem C3_noprofile_counterexample :
    gNoProfile.isKnown 1 = true
    ∧ gNoProfile.onButtonWith 1 Button.a ButtonPhase.pressed =
        some (gNoProfile, [])
    ∧ (alistGet 1 gNoProfile.controllers).map (fun st => st.pressed) =
        some Bitmask.emptyMask
    ∧ Bitmask.emptyMask.insertBtn Button.a ≠ Bitmask.emptyMask := by decide

/-- C3 amended: the pressed-bitmask update (insert of the remapped
button on Pressed, removal on Released) happens exactly when a profile
is installed AND the active app has a rule set — in that case it happens
whether or not any rule fires; with no profile or no rule set the call
returns with the state untouched. -/
theorem C3_pressed_update :
    (∀ (g : Gamacros) (id : Nat) (button : Button) (phase : ButtonPhase)
        (ws : Profile) (appRules : AppRules) (st : ControllerState),
      g.workspace = some ws →
      alistGet g.activeApp ws.rules = some appRules →
      alistGet id g.controllers = some st →
      (let mapped := (alistGet button st.mapping.mapping).getD button
       let nowP :=
         if phase = ButtonPhase.pressed then st.pressed.insertBtn mapped
         else st.pressed.removeBtn mapped
       ∃ acts, g.onButtonWith id button phase =
         some ({ g with
           controllers := alistUpdate id { st with pressed := nowP }
             g.controllers }, acts)))
    ∧ (∀ (g : Gamacros) (id : Nat) (button : Button) (phase : ButtonPhase),
        g.workspace = none →
        g.onButtonWith id button phase = some (g, []))
    ∧ (∀ (g : Gamacros) (id : Nat) (button : Button) (phase : ButtonPhase)
        (ws : Profile), g.workspace = some ws →
        alistGet g.activeApp ws.rules = none →
        g.onButtonWith id button phase = some (g, [])) := by
  refine ⟨?_, ?_, ?_⟩
  · intro g id button phase ws appRules st hws hrules hst
    simp only [Gamacros.onButtonWith, hws, hrules, hst]
    split_ifs <;> exact ⟨_, rfl⟩
  · intro g id button phase hws
    simp only [Gamacros.onButtonWith, hws]
  · intro g id button phase ws hws hrules
    simp only [Gamacros.onButtonWith, hws, hrules]

/-- Witness for C3: on the concrete scenario state, pressing
`LeftShoulder` inserts it into the pressed mask even though no rule
fires. -/
theorem C3_pressed_update_witness :
    (gChord.workspace = some profileNoRemap
    ∧ alistGet gChord.activeApp profileNoRemap.rules = some demoRules
    ∧ alistGet 1 gChord.controllers =
        some ⟨ControllerSettings.init, Bitmask.emptyMask, true,
          [0, 0, 0, 0, 0, 0]⟩)
    ∧ (let st : ControllerState :=
         ⟨ControllerSettings.init, Bitmask.emptyMask, true, [0, 0, 0, 0, 0, 0]⟩
       let mapped :=
         (alistGet Button.leftShoulder st.mapping.mapping).getD
           Button.leftShoulder
       let nowP :=
         if ButtonPhase.pressed = ButtonPhase.pressed then
           st.pressed.insertBtn mapped
         else st.pressed.removeBtn mapped
       ∃ acts, gChord.onButtonWith 1 Button.leftShoulder ButtonPhase.pressed =
         some ({ gChord with
           controllers := alistUpdate 1 { st with pressed := nowP }
             gChord.controllers }, acts)) :=
  ⟨⟨by decide, by decide, by decide⟩,
    C3_pressed_update.1 gChord 1 Button.leftShoulder ButtonPhase.pressed
      profileNoRemap demoRules
      ⟨ControllerSettings.init, Bitmask.emptyMask, true, [0, 0, 0, 0, 0, 0]⟩
      (by decide) (by decide) (by decide)⟩

/-- Counterexample to C4 as stated: with no profile installed,
`add_controller` does not make the id known; and re-adding an already
known controller resets its pressed bitmask instead of leaving the
existing state unchanged. -/
theorem C4_add_controller_counterexample :
    (Gamacros.newCore.addController info1).isKnown 1 = false
    ∧ (alistGet 1 gChordLS.controllers).map (fun st => st.pressed) =
        some (Bitmask.ofList [Button.leftShoulder])
    ∧ (alistGet 1 (gChordLS.addController info1).controllers).map
        (fun st => st.pressed) = some Bitmask.emptyMask
    ∧ Bitmask.ofList [Button.leftShoulder] ≠ Bitmask.emptyMask := by decide

/-- C4 amended: `add_controller` is a no-op when no profile is
installed; with a profile it unconditionally inserts a freshly built
`ControllerState` (remap from the profile or default, empty pressed
mask, zero axes), overwriting any existing entry — it is idempotent as
repeated application, but it does not preserve an existing entry's
pressed bitmask. -/
theorem C4_add_controller :
    (∀ (g : Gamacros) (info : ControllerInfo),
      g.workspace = none → g.addController info = g)
    ∧ (∀ (g : Gamacros) (info : ControllerInfo) (ws : Profile),
        g.workspace = some ws →
        alistGet info.id (g.addController info).controllers =
          some { mapping := (alistGet (info.vendorId, info.productId)
                  ws.controllers).getD ControllerSettings.init
                 pressed := Bitmask.emptyMask
                 rumble := info.supportsRumble
                 axes := [0, 0, 0, 0, 0, 0] }
        ∧ (g.addController info).isKnown info.id = true)
    ∧ (∀ (g : Gamacros) (info : ControllerInfo),
        (g.addController info).addController info = g.addController info) := by
  refine ⟨?_, ?_, ?_⟩
  · intro g info hws
    simp only [Gamacros.addController, hws]
  · intro g info ws hws
    simp only [Gamacros.addController, hws]
    constructor
    · exact alistGet_update_self _ _ _
    · simp [Gamacros.isKnown, alistGet_update_self]
  · intro g info
    cases hws : g.workspace with
    | none => simp only [Gamacros.addController, hws]
    | some ws =>
      simp only [Gamacros.addController, hws]
      simp [alistUpdate_idem]

/-- Witness for C4: adding the scenario controller on a core with the
remap profile installed stores the fresh state with the `A → B` remap
and makes the id known. -/
theorem C4_add_controller_witness :
    ((Gamacros.newCore.setWorkspace profileRemap).workspace =
      some profileRemap)
    ∧ alistGet 1 ((Gamacros.newCore.setWorkspace
          profileRemap).addController info1).controllers =
        some { mapping := (alistGet (info1.vendorId, info1.productId)
                profileRemap.controllers).getD ControllerSettings.init
               pressed := Bitmask.emptyMask
               rumble := info1.supportsRumble
               axes := [0, 0, 0, 0, 0, 0] }
    ∧ ((Gamacros.newCore.setWorkspace
          profileRemap).addController info1).isKnown info1.id = true :=
  ⟨by decide,
    (C4_add_controller.2.1 (Gamacros.newCore.setWorkspace profileRemap) info1
      profileRemap (by decide)).1,
    (C4_add_controller.2.1 (Gamacros.newCore.setWorkspace profileRemap) info1
      profileRemap (by decide)).2⟩

/-- The guarded-append fold of the second resolution pass equals a
filter followed by a flat emission. -/
theorem foldl_emit_eq_filter_bind {α β : Type} (p : α → Prop)
    [DecidablePred p] (f : α → List β) :
    ∀ (l : List α) (acc : List β),
      l.foldl (fun acc tr => if p tr then acc ++ f tr else acc) acc =
        acc ++ (l.filter (fun tr => decide (p tr))).bind f := by
  intro l
  induction l with
  | nil => intro acc; simp
  | cons a rest ih =>
    intro acc
    by_cases h : p a
    · simp [h, ih]
    · simp [h, ih]

/-- The first-pass fold never drops below its accumulator. -/
theorem maxFired_foldl_ge_init (phase : ButtonPhase) (prevP nowP : Bitmask) :
    ∀ (buttons : List (Bitmask × ButtonRule)) (acc : Nat),
      acc ≤ buttons.foldl
        (fun maxBits tr =>
          if fires phase prevP nowP tr.1 ∧ tr.1.count > maxBits then
            tr.1.count
          else maxBits)
        acc := by
  intro buttons
  induction buttons with
  | nil => intro acc; simp
  | cons tr rest ih =>
    intro acc
    simp only [List.foldl_cons]
    by_cases h : fires phase prevP nowP tr.1 ∧ tr.1.count > acc
    · calc acc ≤ tr.1.count := le_of_lt h.2
        _ ≤ _ := by simpa [h] using ih tr.1.count
    · simpa [h] using ih acc

/-- The first-pass fold dominates the popcount of every firing chord. -/
theorem maxFired_foldl_ge (phase : ButtonPhase) (prevP nowP : Bitmask) :
    ∀ (buttons : List (Bitmask × ButtonRule)) (acc : Nat)
      (tr : Bitmask × ButtonRule), tr ∈ buttons →
      fires phase prevP nowP tr.1 = true →
      tr.1.count ≤ buttons.foldl
        (fun maxBits tr =>
          if fires phase prevP nowP tr.1 ∧ tr.1.count > maxBits then
            tr.1.count
          else maxBits)
        acc := by
  intro buttons
  induction buttons with
  | nil => intro acc tr h; simp at h
  | cons hd rest ih =>
    intro acc tr hmem hfire
    rcases List.mem_cons.mp hmem with heq | hmem'
    · subst heq
      simp only [List.foldl_cons]
      by_cases h : fires phase prevP nowP tr.1 ∧ tr.1.count > acc
      · simpa [h] using maxFired_foldl_ge_init phase prevP nowP rest tr.1.count
      · have : tr.1.count ≤ acc := by
          rcases Decidable.not_and_iff_or_not.mp h with h' | h'
          · exact absurd hfire h'
          · omega
        calc tr.1.count ≤ acc := this
          _ ≤ _ := by simpa [h] using maxFired_foldl_ge_init phase prevP nowP rest acc
    · simp only [List.foldl_cons]
      split_ifs <;> exact ih _ tr hmem' hfire

/-- A firing chord whose popcount reaches zero cannot exist: its mask
would be empty, and the empty mask never fires. -/
theorem no_firing_chord_of_max_zero (phase : ButtonPhase)
    (prevP nowP : Bitmask) (buttons : List (Bitmask × ButtonRule))
    (hbits : ∀ tr ∈ buttons, tr.1.bits < u64Size)
    (hmax : maxFiredBits phase prevP nowP buttons = 0) :
    ∀ tr ∈ buttons, ¬(fires phase prevP nowP tr.1 = true) := by
  intro tr hmem hfire
  have hle := maxFired_foldl_ge phase prevP nowP buttons 0 tr hmem hfire
  rw [show buttons.foldl
      (fun maxBits tr =>
        if fires phase prevP nowP tr.1 ∧ tr.1.count > maxBits then
          tr.1.count
        else maxBits) 0 = maxFiredBits phase prevP nowP buttons from rfl,
    hmax] at hle
  have hcount : tr.1.count = 0 := Nat.le_zero.mp hle
  have hzero : tr.1.bits = 0 := by
    have := (popCountFuel_eq_zero 64 tr.1.bits (hbits tr hmem)).mp hcount
    exact this
  have htr : tr.1 = (⟨0⟩ : Bitmask) := by
    cases h1 : tr.1 with
    | mk b =>
      rw [h1] at hzero
      simp only at hzero
      simp [hzero]
  rw [htr] at hfire
  rw [fires_zero phase prevP nowP] at hfire
  exact Bool.false_ne_true hfire

/-- C1. `on_button` resolves by maximal cardinality: the emitted action
list is exactly the concatenated emission of the firing chords whose
popcount equals the maximum firing popcount (rules of smaller
cardinality are suppressed); in the concrete scenario, pressing
`LeftShoulder` emits nothing and then pressing `A` while `LeftShoulder`
is held emits only the two-button rule's `KeyPress "y"`. -/
theorem C1_chord_resolution :
    (∀ (g : Gamacros) (id : Nat) (button : Button) (phase : ButtonPhase)
        (ws : Profile) (appRules : AppRules) (st : ControllerState),
      g.workspace = some ws →
      alistGet g.activeApp ws.rules = some appRules →
      alistGet id g.controllers = some st →
      (∀ tr ∈ appRules.buttons, tr.1.bits < u64Size) →
      (let mapped := (alistGet button st.mapping.mapping).getD button
       let nowP :=
         if phase = ButtonPhase.pressed then st.pressed.insertBtn mapped
         else st.pressed.removeBtn mapped
       let gAfter : Gamacros := { g with
         controllers := alistUpdate id { st with pressed := nowP }
           g.controllers }
       let maxB := maxFiredBits phase st.pressed nowP appRules.buttons
       g.onButtonWith id button phase = some (gAfter,
         (appRules.buttons.filter (fun tr =>
           decide (fires phase st.pressed nowP tr.1 ∧
             tr.1.count = maxB))).bind
           (fun tr => ruleEmission gAfter id phase tr.2))))
    ∧ (gChord.onButtonWith 1 Button.leftShoulder ButtonPhase.pressed).map
        (fun r => r.2) = some []
    ∧ (gChordLS.onButtonWith 1 Button.a ButtonPhase.pressed).map
        (fun r => r.2) = some [EngineAction.keyPress kcY] := by
  refine ⟨?_, by decide, by decide⟩
  intro g id button phase ws appRules st hws hrules hst hbits
  simp only [Gamacros.onButtonWith, hws, hrules, hst]
  by_cases hmax :
      maxFiredBits phase st.pressed
        (if phase = ButtonPhase.pressed then
          st.pressed.insertBtn ((alistGet button st.mapping.mapping).getD button)
        else
          st.pressed.removeBtn ((alistGet button st.mapping.mapping).getD button))
        appRules.buttons = 0
  · simp only [hmax, if_pos rfl]
    have hfilter : appRules.buttons.filter (fun tr =>
        decide (fires phase st.pressed
          (if phase = ButtonPhase.pressed then
            st.pressed.insertBtn
              ((alistGet button st.mapping.mapping).getD button)
          else
            st.pressed.removeBtn
              ((alistGet button st.mapping.mapping).getD button)) tr.1 ∧
          tr.1.count = 0)) = [] := by
      rw [List.filter_eq_nil]
      intro tr hmem
      simp only [decide_eq_true_eq, not_and]
      intro hfire
      exact absurd hfire
        (no_firing_chord_of_max_zero phase st.pressed _ appRules.buttons
          hbits hmax tr hmem)
    rw [hfilter]
    simp
  · simp only [hmax, if_neg, if_false]
    rw [foldl_emit_eq_filter_bind]
    simp

/-- Witness for C1: the resolution formula applied to the concrete
scenario press of `A` while `LeftShoulder` is held. -/
theorem C1_chord_resolution_witness :
    (gChordLS.workspace = some profileNoRemap
    ∧ alistGet gChordLS.activeApp profileNoRemap.rules = some demoRules
    ∧ alistGet 1 gChordLS.controllers =
        some ⟨ControllerSettings.init, Bitmask.ofList [Button.leftShoulder],
          true, [0, 0, 0, 0, 0, 0]⟩
    ∧ (∀ tr ∈ demoRules.buttons, tr.1.bits < u64Size))
    ∧ (let st : ControllerState :=
         ⟨ControllerSettings.init, Bitmask.ofList [Button.leftShoulder],
           true, [0, 0, 0, 0, 0, 0]⟩
       let mapped := (alistGet Button.a st.mapping.mapping).getD Button.a
       let nowP :=
         if ButtonPhase.pressed = ButtonPhase.pressed then
           st.pressed.insertBtn mapped
         else st.pressed.removeBtn mapped
       let gAfter : Gamacros := { gChordLS with
         controllers := alistUpdate 1 { st with pressed := nowP }
           gChordLS.controllers }
       let maxB := maxFiredBits ButtonPhase.pressed st.pressed nowP
         demoRules.buttons
       gChordLS.onButtonWith 1 Button.a ButtonPhase.pressed = some (gAfter,
         (demoRules.buttons.filter (fun tr =>
           decide (fires ButtonPhase.pressed st.pressed nowP tr.1 ∧
             tr.1.count = maxB))).bind
           (fun tr => ruleEmission gAfter 1 ButtonPhase.pressed tr.2))) :=
  ⟨⟨by decide, by decide, by decide, by decide⟩,
    C1_chord_resolution.1 gChordLS 1 Button.a ButtonPhase.pressed
      profileNoRemap demoRules
      ⟨ControllerSettings.init, Bitmask.ofList [Button.leftShoulder], true,
        [0, 0, 0, 0, 0, 0]⟩
      (by decide) (by decide) (by decide) (by decide)⟩

/-- The fresh sequence number is always at least one. -/
theorem nextSeq_pos (s : StickProcessor) : 1 ≤ s.nextSeq.1 := by
  simp only [StickProcessor.nextSeq]
  split_ifs with h
  · omega
  · omega

/-- Writing a slot state with non-zero `seq`, optionally pushing an
entry carrying the same `seq`, preserves the sequence invariant. -/
theorem seqInv_setSlot_push (s : StickProcessor) (id : RepeatTaskId)
    (stX : RepeatTaskState) (hinv : s.seqInv) (hseq : stX.seq ≠ 0) :
    (s.setSlotState id (some stX)).seqInv ∧
    ∀ e : SchedEntry, e.seq = stX.seq →
      ({ s.setSlotState id (some stX) with
        schedule := (s.setSlotState id (some stX)).schedule ++ [e] }
        : StickProcessor).seqInv := by
  have hall : (s.setSlotState id (some stX)).allSlots (fun st => st.seq ≠ 0) :=
    allSlots_setSlotState hinv.1 hseq
  refine ⟨⟨hall, ?_⟩, ?_⟩
  · intro e he
    exact hinv.2 e he
  · intro e heq
    refine ⟨hall, ?_⟩
    intro e' he'
    rcases List.mem_append.mp he' with h | h
    · exact hinv.2 e' h
    · simp at h
      rw [h, heq]
      exact hseq

/-- Registration preserves the sequence invariant: refreshed or created
slots receive the fresh (hence non-zero) sequence number or keep their
old one, and pushed entries carry the slot's number. -/
theorem seqInv_register (s : StickProcessor) (reg : RepeatReg) (now : Nat)
    (hinv : s.seqInv) : ((s.repeaterRegister reg now).2).seqInv := by
  have hpos := nextSeq_pos s
  have hinv1 : (s.nextSeq.2).seqInv := hinv
  simp only [StickProcessor.repeaterRegister, slotFor_nextSeq]
  cases hslot : s.slotFor reg.id with
  | some st =>
    have hstseq : st.seq ≠ 0 := allSlots_slotFor hinv.1 hslot
    simp only
    split_ifs <;>
      first
        | (refine (seqInv_setSlot_push _ reg.id _ hinv1 ?_).2 _ rfl
           first
             | exact Nat.one_le_iff_ne_zero.mp hpos
             | exact hstseq)
        | (refine (seqInv_setSlot_push _ reg.id _ hinv1 ?_).1
           first
             | exact Nat.one_le_iff_ne_zero.mp hpos
             | exact hstseq)
  | none =>
    simp only
    split_ifs <;>
      first
        | exact (seqInv_setSlot_push _ reg.id _ hinv1
            (Nat.one_le_iff_ne_zero.mp hpos)).2 _ rfl
        | exact (seqInv_setSlot_push _ reg.id _ hinv1
            (Nat.one_le_iff_ne_zero.mp hpos)).1

/-- Draining preserves the sequence invariant: popped entries shrink
the schedule, and every rescheduled entry carries its slot's non-zero
sequence number. -/
theorem seqInv_processDue :
    ∀ (fuel : Nat) (s : StickProcessor) (now : Nat), s.seqInv →
      ((StickProcessor.processDueRepeats fuel s now).2.1).seqInv := by
  intro fuel
  induction fuel with
  | zero => intro s now h; exact h
  | succ n ih =>
    intro s now hinv
    simp only [StickProcessor.processDueRepeats]
    cases hpop : heapPopMin s.schedule with
    | none => exact hinv
    | some pr =>
      obtain ⟨top, rest⟩ := pr
      have hperm := heapPopMin_perm hpop
      have hrest : ∀ e ∈ rest, e.seq ≠ 0 := fun e he =>
        hinv.2 e (hperm.mem_iff.mpr (List.mem_cons.mpr (Or.inr he)))
      have hinv1 : ({ s with schedule := rest } : StickProcessor).seqInv :=
        ⟨hinv.1, hrest⟩
      simp only
      split_ifs with hstale hdue
      · exact ih _ _ hinv1
      · cases hslot : ({ s with schedule := rest } :
            StickProcessor).slotFor top.id with
        | none => simp only [hslot]; exact ih _ _ hinv1
        | some st =>
          simp only [hslot]
          have hstseq : st.seq ≠ 0 := allSlots_slotFor hinv.1 hslot
          by_cases hseq : (st.seq == top.seq) = true
          · simp only [hseq, if_true]
            exact ih _ _ (by
              refine ⟨allSlots_setSlotState hinv1.1 hstseq, ?_⟩
              intro e he
              rcases List.mem_append.mp he with h | h
              · exact hrest e h
              · simp at h; rw [h]; exact hstseq)
          · simp only [hseq, if_false]
            exact ih _ _ hinv1
      · exact hinv

/-- C8. `next_seq` never yields zero: the returned value is at least 1,
it increments by one while no wrap occurs, and the wrap from the
largest `u64` value skips zero and yields 1; the invariant that every
occupied slot and every schedule entry carries a non-zero `seq` holds
initially and is preserved by registration and draining. -/
theorem C8_seq_nonzero :
    (∀ s : StickProcessor, 1 ≤ s.nextSeq.1)
    ∧ (∀ s : StickProcessor, s.seqCounter + 1 < u64Size →
        s.nextSeq.1 = s.seqCounter + 1)
    ∧ (∀ s : StickProcessor, s.seqCounter = u64Size - 1 → s.nextSeq.1 = 1)
    ∧ StickProcessor.init.seqInv
    ∧ (∀ (s : StickProcessor) (reg : RepeatReg) (now : Nat),
        s.seqInv → ((s.repeaterRegister reg now).2).seqInv)
    ∧ (∀ (fuel : Nat) (s : StickProcessor) (now : Nat), s.seqInv →
        ((StickProcessor.processDueRepeats fuel s now).2.1).seqInv) := by
  refine ⟨nextSeq_pos, ?_, ?_, ?_, seqInv_register, seqInv_processDue⟩
  · intro s h
    simp only [StickProcessor.nextSeq]
    rw [Nat.mod_eq_of_lt h]
    simp
  · intro s h
    simp only [StickProcessor.nextSeq, h]
    have : u64Size - 1 + 1 = u64Size := by simp [u64Size]
    rw [this, Nat.mod_self]
    simp
  · constructor
    · intro p hp
      simp [StickProcessor.init] at hp
    · intro e he
      simp [StickProcessor.init] at he

/-- Witness for C8: the concrete staleness-scenario state (counter 2,
all slots and entries alive) satisfies and preserves the invariant; its
next sequence number is 3. -/
theorem C8_seq_nonzero_witness :
    (schedAfterSecond.seqCounter + 1 < u64Size
    ∧ schedAfterSecond.seqInv)
    ∧ schedAfterSecond.nextSeq.1 = schedAfterSecond.seqCounter + 1
    ∧ ((schedAfterSecond.repeaterRegister regInterval100 60).2).seqInv := by
  have h1 : schedAfterSecond.seqCounter + 1 < u64Size := by
    rw [show schedAfterSecond.seqCounter = 2 from by decide]
    norm_num [u64Size]
  have h2 : schedAfterSecond.seqInv :=
    seqInv_register schedAfterFirst regInterval30 10
      (seqInv_register StickProcessor.init regInterval100 0
        C8_seq_nonzero.2.2.2.1)
  exact ⟨⟨h1, h2⟩, C8_seq_nonzero.2.1 schedAfterSecond h1,
    C8_seq_nonzero.2.2.2.2.1 schedAfterSecond regInterval100 60 h2⟩

/-- Fuel bound for the drain loop: when every occupied slot has a
positive interval, any fuel above the measure — entries due at or
before `now` plus the schedule length — reaches the natural exit. Every
iteration pops a minimal entry; a stale pop shrinks the schedule, a
fire replaces a due entry by one strictly in the future, so the measure
strictly decreases. -/
theorem processDue_fuel_terminates (now : Nat) :
    ∀ (n : Nat) (s : StickProcessor), s.intervalsPos →
      dueCount s.schedule now + s.schedule.length < n →
      (StickProcessor.processDueRepeats n s now).2.2 = true := by
  intro n
  induction n with
  | zero => intro s hpos hm; omega
  | succ n ih =>
    intro s hpos hm
    simp only [StickProcessor.processDueRepeats]
    cases hpop : heapPopMin s.schedule with
    | none => simp
    | some pr =>
      obtain ⟨top, rest⟩ := pr
      have hperm := heapPopMin_perm hpop
      have hlen : s.schedule.length = rest.length + 1 := by
        simpa using hperm.length_eq
      have hcnt : dueCount s.schedule now =
          (if top.due ≤ now then 1 else 0) + dueCount rest now := by
        unfold dueCount
        rw [List.Perm.countP_eq _ hperm, List.countP_cons]
        simp only [decide_eq_true_eq]
        omega
      simp only
      split_ifs with hstale hdue
      · apply ih
        · exact hpos
        · show dueCount rest now + rest.length < n
          omega
      · cases hslot : ({ s with schedule := rest } :
            StickProcessor).slotFor top.id with
        | none =>
          simp only [hslot]
          apply ih
          · exact hpos
          · show dueCount rest now + rest.length < n
            omega
        | some st =>
          simp only [hslot]
          have hint : 0 < st.intervalMs := allSlots_slotFor hpos hslot
          by_cases hseq : (st.seq == top.seq) = true
          · simp only [hseq, if_true]
            apply ih
            · exact allSlots_setSlotState (P := fun t => 0 < t.intervalMs)
                hpos hint
            · show dueCount
                  (rest ++ [(⟨now + st.intervalMs, top.id, st.seq⟩ :
                    SchedEntry)]) now +
                (rest ++ [(⟨now + st.intervalMs, top.id, st.seq⟩ :
                  SchedEntry)]).length < n
              unfold dueCount
              rw [List.countP_append, List.length_append]
              have hone : List.countP (fun e => decide (e.due ≤ now))
                  [(⟨now + st.intervalMs, top.id, st.seq⟩ : SchedEntry)] = 0 := by
                simp only [List.countP_cons, List.countP_nil,
                  decide_eq_true_eq]
                have : ¬(now + st.intervalMs ≤ now) := by omega
                simp [this]
              rw [hone]
              simp only [List.length_cons, List.length_nil]
              have hd : (if top.due ≤ now then 1 else 0) = 1 := by simp [hdue]
              unfold dueCount at hcnt hm
              omega
          · simp only [hseq, if_false]
            apply ih
            · exact hpos
            · show dueCount rest now + rest.length < n
              omega
      · rfl

/-- One drain iteration on the zero-interval state fires its task and
restores the state exactly: the entry due at 0 is popped, the tap
emitted, and an identical entry (due `0 + 0`, same sequence number)
pushed back. -/
theorem processDue_zeroInterval_step (n : Nat) :
    StickProcessor.processDueRepeats (n + 1) schedZeroInterval 0 =
      (EngineAction.keyTap (KeyCombo.fromKey Key.rightArrow) ::
        (StickProcessor.processDueRepeats n schedZeroInterval 0).1,
       (StickProcessor.processDueRepeats n schedZeroInterval 0).2.1,
       (StickProcessor.processDueRepeats n schedZeroInterval 0).2.2) := rfl

/-- C10. The drain loop terminates for every scheduler state whose
occupied slots all have positive intervals — fuel `2·|schedule| + 1`
always reaches the natural exit — and the positivity is necessary: on
the state holding one due zero-interval task the loop never exits, for
any amount of fuel. -/
theorem C10_process_due_terminates :
    (∀ (s : StickProcessor) (now : Nat), s.intervalsPos →
      (StickProcessor.processDueRepeats
        (2 * s.schedule.length + 1) s now).2.2 = true)
    ∧ (∀ fuel : Nat,
        (StickProcessor.processDueRepeats fuel schedZeroInterval 0).2.2 =
          false) := by
  constructor
  · intro s now hpos
    apply processDue_fuel_terminates now _ s hpos
    have := List.countP_le_length
      (fun e => decide (e.due ≤ now)) (l := s.schedule)
    unfold dueCount
    omega
  · intro fuel
    induction fuel with
    | zero => rfl
    | succ n ih => rw [processDue_zeroInterval_step n]; exact ih

/-- Witness for C10: the staleness-scenario state has positive
intervals everywhere, and its drain with the stated fuel exits
naturally. -/
theorem C10_process_due_terminates_witness :
    schedAfterSecond.intervalsPos
    ∧ (StickProcessor.processDueRepeats
        (2 * schedAfterSecond.schedule.length + 1)
        schedAfterSecond 50).2.2 = true := by
  have hctrl : schedAfterSecond.controllers =
      [(1, ⟨[⟨(0, 0), [none, none, none,
          some ⟨Key.rightArrow, true, 0, 30, 0, true, 0, 2⟩],
          [none, none, none, none], [none, none, none, none]⟩,
        SideRepeatState.init]⟩)] := by decide
  have hpos : schedAfterSecond.intervalsPos := by
    intro p hp sd hsd o ho st host
    rw [hctrl] at hp
    simp at hp
    rw [hp] at hsd
    simp at hsd
    rcases hsd with hsd | hsd
    · have hoo : o = none ∨
          o = some (⟨Key.rightArrow, true, 0, 30, 0, true, 0, 2⟩ :
            RepeatTaskState) := by
        rw [hsd] at ho
        simp at ho
        tauto
      rcases hoo with h | h
      · rw [h] at host; simp at host
      · rw [h] at host
        have h30 := Option.some.inj host
        rw [← h30]
        norm_num
    · have hoo : o = none := by
        rw [hsd] at ho
        simp [SideRepeatState.init] at ho
        exact ho
      rw [hoo] at host; simp at host
  exact ⟨hpos, C10_process_due_terminates.1 schedAfterSecond 50 hpos⟩
